import Mathlib

/-!
Verification development for the SpectraLab spectrum simulator
(`src/lib/spectrum-simulator.ts`).

The TypeScript source is shallowly embedded as follows:

* JavaScript numbers are modelled as exact rationals (`ℚ`).  The source
  performs only field arithmetic, `Math.abs`, `Math.min`, `Math.max`,
  `Math.floor` and comparisons on them, all of which are exact here.
* `Math.random()` is modelled as an explicit stream `Nat → ℚ` inside an
  environment `Env`; each call site consumes the next index of the stream,
  in source evaluation order.  `Math.sin`, `Math.exp` and `Math.PI` are
  modelled as abstract fields of the same environment.  `Env.Valid`
  records exactly the facts the JavaScript runtime guarantees
  (`0 ≤ random() < 1`, `|sin x| ≤ 1`).
* Strings are modelled as `List Char`; the handful of regular expressions
  used by `analyzeMolecule` are transcribed as decidable scanners, one per
  regex, with the lookahead semantics spelled out.
* `Array.prototype.sort` with a numeric comparator is modelled by the
  stable `List.mergeSort` on the comparator's ≤.
* The JavaScript `Map` used for IR peak minima (string keys
  `` `${assignment}_${wavenumber.toFixed(0)}` ``) is modelled as an
  insertion-ordered association list keyed by the pair
  (assignment, rounded wavenumber); every assignment string in the source
  contains no underscore, so the key ↔ pair translation is exact, and
  `substring(0, lastIndexOf('_'))` is the first projection.
-/

namespace SpectraLab

/-! ## String primitives (JS `includes`, `endsWith`, regex scanners) -/

/-- Tells whether the pattern `pat` is an initial segment of `s`. -/
def leadsWith : List Char → List Char → Bool
  | [], _ => true
  | _ :: _, [] => false
  | p :: ps, c :: cs => p == c && leadsWith ps cs

/-- JS `s.includes(pat)`: `pat` occurs contiguously somewhere in `s`. -/
def containsSub (pat : List Char) : List Char → Bool
  | [] => leadsWith pat []
  | c :: cs => leadsWith pat (c :: cs) || containsSub pat cs

/-- JS `s.endsWith(pat)`. -/
def endsWithL (pat s : List Char) : Bool :=
  leadsWith pat.reverse s.reverse

/-- JS regex `\w`: `[A-Za-z0-9_]`. -/
def isWordChar (c : Char) : Bool := c.isAlpha || c.isDigit || c == '_'

/-- Lookahead body of `/O(?![(=]|\w?C(=O)|\w?O\w)/` applied to the text
following an `O`: true when one of the alternatives matches. -/
def ohLookahead (t : List Char) : Bool :=
  (match t with
   | '(' :: _ => true
   | '=' :: _ => true
   | _ => false)
  || leadsWith ['C', '=', 'O'] t
  || (match t with
      | w :: rest => isWordChar w && leadsWith ['C', '=', 'O'] rest
      | [] => false)
  || (match t with
      | 'O' :: w :: _ => isWordChar w
      | _ => false)
  || (match t with
      | w₁ :: 'O' :: w₂ :: _ => isWordChar w₁ && isWordChar w₂
      | _ => false)

/-- JS `/O(?![(=]|\w?C(=O)|\w?O\w)/.test(s)`: some `O` in `s` whose following
text matches none of the lookahead alternatives. -/
def testOH : List Char → Bool
  | [] => false
  | 'O' :: t => !ohLookahead t || testOH t
  | _ :: t => testOH t

/-- Lookahead body of `/N(?![(]?=|[#C])/`: matches `=`, `(=`, `#` or `C`. -/
def nhLookahead (t : List Char) : Bool :=
  match t with
  | '=' :: _ => true
  | '#' :: _ => true
  | 'C' :: _ => true
  | '(' :: '=' :: _ => true
  | _ => false

/-- JS `/N(?![(]?=|[#C])/.test(s)`. -/
def testNH : List Char → Bool
  | [] => false
  | 'N' :: t => !nhLookahead t || testNH t
  | _ :: t => testNH t

/-- Negative lookahead `(?!=\S)` at text `t`: true (lookahead succeeds)
unless `t` starts with `=` followed by a non-whitespace character. -/
def negEqNonSpace (t : List Char) : Bool :=
  match t with
  | '=' :: c :: _ => c.isWhitespace
  | _ => true

/-- One attempted match of `/C(?!=\S)O(?!=\S)C/` anchored at the start of `t`
(the leading `C` has already been consumed). -/
def cocHere (t : List Char) : Bool :=
  negEqNonSpace t &&
    (match t with
     | 'O' :: u =>
        negEqNonSpace u &&
          (match u with
           | 'C' :: _ => true
           | _ => false)
     | _ => false)

/-- JS `/C(?!=\S)O(?!=\S)C/.test(s)`. -/
def testCOC : List Char → Bool
  | [] => false
  | 'C' :: t => cocHere t || testCOC t
  | _ :: t => testCOC t

/-- JS `/c1.*c1/.test(s)`: an occurrence of `c1` followed (after any gap)
by another occurrence of `c1`. -/
def testC1C1 : List Char → Bool
  | [] => false
  | c :: t =>
      (c == 'c' &&
        (match t with
         | '1' :: u => containsSub ['c', '1'] u
         | _ => false))
      || testC1C1 t

/-- Lookahead of `/C(?![=a-z#])/`: true when the next character is *not*
`=`, a lowercase letter, or `#` (or the string ends). -/
def sp3Lookahead (t : List Char) : Bool :=
  match t with
  | [] => true
  | c :: _ => !(c == '=' || c.isLower || c == '#')

/-- JS `/C(?![=a-z#])/.test(s)`. -/
def testSp3 : List Char → Bool
  | [] => false
  | 'C' :: t => sp3Lookahead t || testSp3 t
  | _ :: t => testSp3 t

/-- JS `/[a-z]/.test(s)`. -/
def testLower (s : List Char) : Bool := s.any Char.isLower

/-! ## FeatureDetector: `analyzeMolecule` -/

/-- Feature flags detected from a descriptor (source `MoleculeFeatures`). -/
structure MoleculeFeatures where
  hasOH : Bool
  hasCOOH : Bool
  hasNH : Bool
  hasAmideNH : Bool
  hasCarbonyl : Bool
  hasKetoneAldehyde : Bool
  hasEster : Bool
  hasAmide : Bool
  hasEther : Bool
  hasAlkene : Bool
  hasAlkyne : Bool
  hasAromatic : Bool
  hasSp3CH : Bool
  hasSp2CH : Bool
  deriving DecidableEq, Repr

/-- The all-false flag record (source: initial `features` object, returned
unchanged for an empty/absent descriptor). -/
def noFeatures : MoleculeFeatures :=
  ⟨false, false, false, false, false, false, false, false, false, false,
   false, false, false, false⟩

/-- Source `analyzeMolecule`.  The mutation sequence of the original is
expressed as a let-chain in the same order, including the two suppression
steps (carboxylic acid clears the hydroxyl flag, amide clears the amine
flag and transfers it to the amide-NH flag). -/
def analyzeMolecule (smiles : List Char) : MoleculeFeatures :=
  if smiles.isEmpty then noFeatures
  else
    let hasCarbonyl := containsSub "C=O".data smiles || containsSub "C(=O)".data smiles
    let hasEster := containsSub "C(=O)O".data smiles || containsSub "OC=O".data smiles
    let hasAmide := containsSub "C(=O)N".data smiles || containsSub "NC=O".data smiles
    let hasCOOH := containsSub "C(=O)O".data smiles &&
      (containsSub "(=O)OH".data smiles || containsSub "O=CO".data smiles)
    let hasOH0 := testOH smiles || endsWithL "OH".data smiles
    let hasOH := if hasCOOH then false else hasOH0
    let hasNH0 := testNH smiles
    let hasAmideNH := if hasAmide then hasNH0 else false
    let hasNH := if hasAmide then false else hasNH0
    let hasKetoneAldehyde := hasCarbonyl && !hasEster && !hasAmide && !hasCOOH
    let hasEther := testCOC smiles || containsSub "cOc".data smiles
    let hasAlkene := containsSub "C=C".data smiles
    let hasAlkyne := containsSub "C#C".data smiles
    let hasAromatic := testLower smiles || testC1C1 smiles ||
      containsSub "C1=CC=CC=C1".data smiles
    let hasSp3CH := testSp3 smiles || containsSub "CH".data smiles ||
      containsSub "C".data smiles
    let hasSp2CH := hasAlkene || hasAromatic
    ⟨hasOH, hasCOOH, hasNH, hasAmideNH, hasCarbonyl, hasKetoneAldehyde,
     hasEster, hasAmide, hasEther, hasAlkene, hasAlkyne, hasAromatic,
     hasSp3CH, hasSp2CH⟩

/-! ## Environment: ambient randomness and transcendental primitives -/

/-- Ambient JavaScript runtime facilities used by the simulator:
`Math.random` as an explicit draw stream (consumed left to right, one index
per call site), plus abstract `Math.sin`, `Math.exp` and `Math.PI`. -/
structure Env where
  rand : Nat → ℚ
  sin : ℚ → ℚ
  exp : ℚ → ℚ
  pi : ℚ

/-- The facts the JavaScript runtime guarantees about the environment:
every `Math.random()` result lies in `[0, 1)` and `Math.sin` is bounded
by 1 in absolute value.  Quantifying over all `Valid` environments models
"for every outcome of the random source". -/
structure Env.Valid (e : Env) : Prop where
  rand_nonneg : ∀ n, 0 ≤ e.rand n
  rand_lt_one : ∀ n, e.rand n < 1
  sin_le_one : ∀ x, e.sin x ≤ 1
  neg_one_le_sin : ∀ x, -1 ≤ e.sin x

/-- A concrete valid environment for witnesses. -/
def env0 : Env :=
  { rand := fun _ => 1/2, sin := fun _ => 0, exp := fun _ => 0, pi := 157/50 }

/-! ## LineshapeLibrary -/

/-- Source `lorentzianPeak` (IR lineshape), including the dead
`denominator === 0` branch of the original. -/
def lorentzianPeak (x x0 fwhm amplitude : ℚ) : ℚ :=
  let gamma := fwhm / 2
  if gamma ≤ 0 then 0
  else
    let denominator := (x - x0) ^ 2 + gamma ^ 2
    if denominator = 0 then (if 0 < amplitude then amplitude else 0)
    else amplitude * (gamma ^ 2 / denominator)

/-- Source `gaussianPeak` (UV lineshape); `Math.exp` comes from the
environment. -/
def gaussianPeak (e : Env) (x x0 width amplitude : ℚ) : ℚ :=
  if width ≤ 0 then 0
  else amplitude * e.exp (-(x - x0) ^ 2 / (2 * width ^ 2))

/-! ## IR data structures -/

/-- Source `IRPeakInfo`. -/
structure IRPeakInfo where
  wavenumber : ℚ
  targetTransmittance : ℚ
  width : ℚ
  assignment : String
  deriving DecidableEq

/-- Source `IRSpectrumPeak`. -/
structure IRSpectrumPeak where
  wavenumber : ℚ
  transmittance : ℚ
  assignment : String
  deriving DecidableEq

/-- Source `IRSpectrumData`. -/
structure IRSpectrumData where
  spectrum : List (ℚ × ℚ)
  peaks : List IRSpectrumPeak

/-- JS `a.includes(b)` on output label strings. -/
def strContains (s pat : String) : Bool := containsSub pat.data s.data

/-- The acetone descriptor `'CC(=O)C'`. -/
def acetoneS : List Char := "CC(=O)C".data

/-! ## IR characteristic peak construction -/

/-- State of the characteristic-peak construction: the peak list so far
together with the next random-draw index. -/
abbrev IRSpecState := List IRPeakInfo × Nat

/-- One feature-conditioned push block of `simulateIRSpectrum`; the blocks
appear below in source order and are chained by `mkIRSpecsBase`. -/
def stepOH (e : Env) (f : MoleculeFeatures) (st : IRSpecState) : IRSpecState :=
  if f.hasOH then
    (st.1 ++ [⟨3350 + e.rand st.2 * 250, 30 + e.rand (st.2+1) * 40,
               100 + e.rand (st.2+2) * 200, "O-H stretch (Alcohol/Phenol)"⟩], st.2 + 3)
  else st

def stepCOOH (e : Env) (f : MoleculeFeatures) (st : IRSpecState) : IRSpecState :=
  if f.hasCOOH then
    (st.1 ++ [⟨2800 + e.rand st.2 * 400, 40 + e.rand (st.2+1) * 40,
               300 + e.rand (st.2+2) * 300, "O-H stretch (Carboxylic Acid)"⟩,
              ⟨1710 + e.rand (st.2+3) * 20, 10 + e.rand (st.2+4) * 20,
               25 + e.rand (st.2+5) * 15, "C=O stretch (Carboxylic Acid)"⟩], st.2 + 6)
  else st

def stepNH (e : Env) (s : List Char) (f : MoleculeFeatures) (st : IRSpecState) : IRSpecState :=
  if f.hasNH then
    let st1 : IRSpecState :=
      (st.1 ++ [⟨3350 + e.rand st.2 * 150, 45 + e.rand (st.2+1) * 35,
                 50 + e.rand (st.2+2) * 50, "N-H stretch"⟩], st.2 + 3)
    if !containsSub "N(".data s then
      (st1.1 ++ [⟨3400 + e.rand st1.2 * 100, 50 + e.rand (st1.2+1) * 30,
                  40 + e.rand (st1.2+2) * 40, "N-H stretch"⟩], st1.2 + 3)
    else st1
  else st

def stepAmideNH (e : Env) (f : MoleculeFeatures) (st : IRSpecState) : IRSpecState :=
  if f.hasAmideNH then
    (st.1 ++ [⟨3200 + e.rand st.2 * 200, 40 + e.rand (st.2+1) * 30,
               60 + e.rand (st.2+2) * 60, "N-H stretch (Amide)"⟩], st.2 + 3)
  else st

def stepSp3 (e : Env) (f : MoleculeFeatures) (st : IRSpecState) : IRSpecState :=
  if f.hasSp3CH then
    (st.1 ++ [⟨2960 + e.rand st.2 * 40, 40 + e.rand (st.2+1) * 30,
               25 + e.rand (st.2+2) * 15, "C-H stretch (sp3)"⟩,
              ⟨2870 + e.rand (st.2+3) * 40, 50 + e.rand (st.2+4) * 30,
               30 + e.rand (st.2+5) * 15, "C-H stretch (sp3)"⟩,
              ⟨1450 + e.rand (st.2+6) * 30, 50 + e.rand (st.2+7) * 30,
               20 + e.rand (st.2+8) * 10, "C-H bend (sp3)"⟩,
              ⟨1375 + e.rand (st.2+9) * 15, 55 + e.rand (st.2+10) * 25,
               15 + e.rand (st.2+11) * 10, "C-H bend (sp3)"⟩], st.2 + 12)
  else st

def stepSp2 (e : Env) (f : MoleculeFeatures) (st : IRSpecState) : IRSpecState :=
  if f.hasSp2CH then
    (st.1 ++ [⟨3050 + e.rand st.2 * 70, 70 + e.rand (st.2+1) * 20,
               15 + e.rand (st.2+2) * 10, "C-H stretch (sp2)"⟩], st.2 + 3)
  else st

def stepAlkyne (e : Env) (s : List Char) (f : MoleculeFeatures) (st : IRSpecState) : IRSpecState :=
  if f.hasAlkyne && !containsSub "C#N".data s then
    (st.1 ++ [⟨3300 + e.rand st.2 * 30, 50 + e.rand (st.2+1) * 20,
               20 + e.rand (st.2+2) * 10, "C-H stretch (sp)"⟩,
              ⟨2120 + e.rand (st.2+3) * 40, 70 + e.rand (st.2+4) * 20,
               15 + e.rand (st.2+5) * 10, "C#C stretch"⟩], st.2 + 6)
  else if f.hasAlkyne then
    (st.1 ++ [⟨2200 + e.rand st.2 * 60, 85 + e.rand (st.2+1) * 10,
               15 + e.rand (st.2+2) * 10, "C#C stretch (Internal)"⟩], st.2 + 3)
  else st

def stepEster (e : Env) (f : MoleculeFeatures) (st : IRSpecState) : IRSpecState :=
  if f.hasEster && !f.hasCOOH then
    (st.1 ++ [⟨1740 + e.rand st.2 * 20, 10 + e.rand (st.2+1) * 15,
               20 + e.rand (st.2+2) * 10, "C=O stretch (Ester)"⟩,
              ⟨1180 + e.rand (st.2+3) * 100, 20 + e.rand (st.2+4) * 30,
               30 + e.rand (st.2+5) * 20, "C-O stretch (Ester)"⟩], st.2 + 6)
  else st

def stepAmide (e : Env) (f : MoleculeFeatures) (st : IRSpecState) : IRSpecState :=
  if f.hasAmide then
    let st1 : IRSpecState :=
      (st.1 ++ [⟨1660 + e.rand st.2 * 30, 15 + e.rand (st.2+1) * 20,
                 30 + e.rand (st.2+2) * 15, "C=O stretch (Amide I)"⟩], st.2 + 3)
    if f.hasAmideNH then
      (st1.1 ++ [⟨1550 + e.rand st1.2 * 50, 40 + e.rand (st1.2+1) * 30,
                  30 + e.rand (st1.2+2) * 20, "N-H bend (Amide II)"⟩], st1.2 + 3)
    else st1
  else st

def stepKetoneAldehyde (e : Env) (s : List Char) (f : MoleculeFeatures) (st : IRSpecState) :
    IRSpecState :=
  if f.hasKetoneAldehyde then
    let st1 : IRSpecState :=
      (st.1 ++ [⟨1715 + e.rand st.2 * 25, 10 + e.rand (st.2+1) * 15,
                 20 + e.rand (st.2+2) * 10, "C=O stretch (Ketone/Aldehyde)"⟩], st.2 + 3)
    if containsSub "C(=O)H".data s || containsSub "C=O)H".data s then
      (st1.1 ++ [⟨2720 + e.rand st1.2 * 20, 70 + e.rand (st1.2+1) * 15,
                  15 + e.rand (st1.2+2) * 5, "C-H stretch (Aldehyde)"⟩,
                 ⟨2820 + e.rand (st1.2+3) * 20, 75 + e.rand (st1.2+4) * 15,
                  15 + e.rand (st1.2+5) * 5, "C-H stretch (Aldehyde)"⟩], st1.2 + 6)
    else st1
  else st

def stepAlkene (e : Env) (f : MoleculeFeatures) (st : IRSpecState) : IRSpecState :=
  if f.hasAlkene then
    (st.1 ++ [⟨1650 + e.rand st.2 * 30, 65 + e.rand (st.2+1) * 25,
               15 + e.rand (st.2+2) * 10, "C=C stretch (Alkene)"⟩,
              ⟨910 + e.rand (st.2+3) * 80, 40 + e.rand (st.2+4) * 30,
               20 + e.rand (st.2+5) * 15, "C-H oop bend (Alkene)"⟩], st.2 + 6)
  else st

def stepAromatic (e : Env) (f : MoleculeFeatures) (st : IRSpecState) : IRSpecState :=
  if f.hasAromatic then
    (st.1 ++ [⟨1600 + e.rand st.2 * 15, 60 + e.rand (st.2+1) * 25,
               15 + e.rand (st.2+2) * 10, "C=C stretch (Aromatic)"⟩,
              ⟨1475 + e.rand (st.2+3) * 50, 55 + e.rand (st.2+4) * 30,
               20 + e.rand (st.2+5) * 15, "C=C stretch (Aromatic)"⟩,
              ⟨750 + e.rand (st.2+6) * 100, 30 + e.rand (st.2+7) * 30,
               25 + e.rand (st.2+8) * 15, "C-H oop bend (Aromatic)"⟩], st.2 + 9)
  else st

def stepCO (e : Env) (f : MoleculeFeatures) (st : IRSpecState) : IRSpecState :=
  if f.hasEther || (f.hasOH && !f.hasCOOH) || (f.hasEster && !f.hasCOOH) then
    if !st.1.any (fun p => p.assignment == "C-O stretch (Ester)") then
      (st.1 ++ [⟨1100 + e.rand st.2 * 150, 35 + e.rand (st.2+1) * 40,
                 40 + e.rand (st.2+2) * 30, "C-O stretch"⟩], st.2 + 3)
    else st
  else st

def stepNitrile (e : Env) (s : List Char) (st : IRSpecState) : IRSpecState :=
  if containsSub "C#N".data s then
    (st.1 ++ [⟨2250 + e.rand st.2 * 20, 50 + e.rand (st.2+1) * 30,
               15 + e.rand (st.2+2) * 10, "C#N stretch"⟩], st.2 + 3)
  else st

/-- Source `simulateIRSpectrum`, characteristic-peak section: all
feature-conditioned push blocks in source order. -/
def mkIRSpecsBase (e : Env) (s : List Char) (f : MoleculeFeatures) (k0 : Nat) :
    IRSpecState :=
  stepNitrile e s (stepCO e f (stepAromatic e f (stepAlkene e f
    (stepKetoneAldehyde e s f (stepAmide e f (stepEster e f (stepAlkyne e s f
      (stepSp2 e f (stepSp3 e f (stepAmideNH e f (stepNH e s f
        (stepCOOH e f (stepOH e f ([], k0))))))))))))))

/-- Source fingerprint-region loop: `n` iterations, each drawing a
candidate wavenumber in 600–1350 and pushing a `Fingerprint region` peak
unless it falls within 40 units of an existing peak whose target
transmittance is below 50. -/
def addFps (e : Env) : Nat → List IRPeakInfo → Nat → List IRPeakInfo × Nat
  | 0, acc, k => (acc, k)
  | n + 1, acc, k =>
      let w := 600 + e.rand k * 750
      let tooClose := acc.any fun p =>
        decide (|p.wavenumber - w| < 40) && decide (p.targetTransmittance < 50)
      if tooClose then addFps e n acc (k + 1)
      else addFps e n
        (acc ++ [⟨w, 45 + e.rand (k+1) * 45, 15 + e.rand (k+2) * 15, "Fingerprint region"⟩])
        (k + 3)

/-- Acetone override, filter part: removes conflicting generic peaks. -/
def acetoneIRFilter (p : IRPeakInfo) : Bool :=
  !(strContains p.assignment "C=O" && decide (|p.wavenumber - 1715| < 50)) &&
  !(strContains p.assignment "C-H stretch (sp3)") &&
  !(strContains p.assignment "C-H bend (sp3)") &&
  !(p.assignment == "Fingerprint region" && decide (|p.wavenumber - 1220| < 50))

/-- Acetone override, curated peak set (six pushes, eighteen draws). -/
def acetoneIRPeaks (e : Env) (k : Nat) : List IRPeakInfo :=
  [⟨1715 + (e.rand k - 0.5) * 5, 5 + e.rand (k+1) * 5, 18 + e.rand (k+2) * 5, "C=O"⟩,
   ⟨2965 + (e.rand (k+3) - 0.5) * 10, 50 + e.rand (k+4) * 10, 20 + e.rand (k+5) * 10, "C-H"⟩,
   ⟨2925 + (e.rand (k+6) - 0.5) * 10, 55 + e.rand (k+7) * 15, 20 + e.rand (k+8) * 10, "C-H"⟩,
   ⟨1430 + (e.rand (k+9) - 0.5) * 10, 40 + e.rand (k+10) * 10, 15 + e.rand (k+11) * 8, "CH3 bend"⟩,
   ⟨1360 + (e.rand (k+12) - 0.5) * 5, 45 + e.rand (k+13) * 10, 12 + e.rand (k+14) * 5, "CH3 bend"⟩,
   ⟨1220 + (e.rand (k+15) - 0.5) * 10, 40 + e.rand (k+16) * 15, 20 + e.rand (k+17) * 8, "C-C stretch"⟩]

/-- Full characteristic-peak list of `simulateIRSpectrum`: feature pushes,
fingerprint scatter (3 + ⌊random()*5⌋ attempts), then the acetone
override. -/
def mkIRSpecs (e : Env) (s : List Char) : List IRPeakInfo × Nat :=
  let f := analyzeMolecule s
  let st := mkIRSpecsBase e s f 0
  let fpCount := 3 + (⌊e.rand st.2 * 5⌋).toNat
  let st := addFps e fpCount st.1 (st.2 + 1)
  if s = acetoneS then
    (st.1.filter acetoneIRFilter ++ acetoneIRPeaks e st.2, st.2 + 18)
  else st

/-! ## IR curve rendering and peak-minima tracking -/

def irBaselineLevel : ℚ := 98
def irNoiseAmplitude : ℚ := 0.8
def irNoiseFrequency : ℚ := 0.08
def irNumPoints : Nat := (4000 - 400) * 2 + 1
def irSampleStep : ℚ := (4000 - 400) / ((irNumPoints : ℚ) - 1)

/-- Wavenumber of sample `i` (source: `minWavenumber + i * step`). -/
def irW (i : Nat) : ℚ := 400 + (i : ℚ) * irSampleStep

/-- Sum of all Lorentzian contributions at wavenumber `w` (the source's
`totalPeakContribution`); each amplitude is `max(0, baseline − target)`. -/
def irTotalContribution (peaks : List IRPeakInfo) (w : ℚ) : ℚ :=
  (peaks.map fun p =>
    lorentzianPeak w p.wavenumber p.width (max 0 (irBaselineLevel - p.targetTransmittance))).sum

/-- Clamped transmittance of one curve sample; `k` is the index of the
first of the two random draws of this iteration. -/
def irPointT (e : Env) (peaks : List IRPeakInfo) (w : ℚ) (k : Nat) : ℚ :=
  let noise := (e.rand k - 0.5) * 2 * irNoiseAmplitude
    + e.sin (w * irNoiseFrequency + e.rand (k+1) * e.pi) * irNoiseAmplitude * 0.4
  max 0.1 (min 100 (irBaselineLevel + noise - irTotalContribution peaks w))

/-- The minima `Map`: insertion-ordered association list; key is the pair
(assignment, wavenumber rounded as by `toFixed(0)`). -/
abbrev MinKey := String × ℤ
abbrev MinMap := List (MinKey × (ℚ × ℚ))

/-- JS `toFixed(0)` on the positive wavenumbers at hand: round half up. -/
def jsRound (x : ℚ) : ℤ := ⌊x + 1/2⌋

def keyOf (p : IRPeakInfo) : MinKey := (p.assignment, jsRound p.wavenumber)

/-- JS `Map.set` keeping insertion order, writing only when absent or
strictly smaller (source: `!currentMin || t < currentMin.transmittance`). -/
def updMin : MinMap → MinKey → ℚ → ℚ → MinMap
  | [], key, w, t => [(key, (w, t))]
  | (k, v) :: rest, key, w, t =>
      if k = key then
        (if t < v.2 then (k, (w, t)) :: rest else (k, v) :: rest)
      else (k, v) :: updMin rest key w t

/-- Proximity window of a peak: `max(5, width / 3)`. -/
def checkWindow (p : IRPeakInfo) : ℚ := max 5 (p.width / 3)

/-- Per-sample minima update over all characteristic peaks. -/
def trackMinima (peaks : List IRPeakInfo) (w t : ℚ) (m : MinMap) : MinMap :=
  peaks.foldl
    (fun m p => if |w - p.wavenumber| < checkWindow p then updMin m (keyOf p) w t else m) m

/-- The sampling loop of `simulateIRSpectrum`: `n` remaining samples,
current sample index `i`, current draw index `k`. -/
def irLoop (e : Env) (peaks : List IRPeakInfo) :
    Nat → Nat → Nat → List (ℚ × ℚ) → MinMap → List (ℚ × ℚ) × MinMap
  | 0, _, _, pts, m => (pts, m)
  | n + 1, i, k, pts, m =>
      let w := irW i
      let t := irPointT e peaks w k
      irLoop e peaks n (i + 1) (k + 2) (pts ++ [(w, t)]) (trackMinima peaks w t m)

/-- Output-peak formatting: keep tracked minima below the significance
threshold, de-duplicating same-label peaks within 15 wavenumbers. -/
def buildLabeled : MinMap → List IRSpectrumPeak → List IRSpectrumPeak
  | [], acc => acc
  | (key, v) :: rest, acc =>
      if v.2 < irBaselineLevel - irNoiseAmplitude * 2.5 then
        if acc.any (fun lp =>
            decide (|lp.wavenumber - v.1| < 15) && lp.assignment == key.1) then
          buildLabeled rest acc
        else buildLabeled rest (acc ++ [⟨v.1, v.2, key.1⟩])
      else buildLabeled rest acc

/-- JS `peaks.sort((a, b) => a.wavenumber - b.wavenumber)`. -/
def irSort (l : List IRSpectrumPeak) : List IRSpectrumPeak :=
  l.mergeSort fun a b => decide (a.wavenumber ≤ b.wavenumber)

/-- Acetone label simplification map. -/
def simplifyIRLabel (p : IRSpectrumPeak) : IRSpectrumPeak :=
  if strContains p.assignment "C-C" then { p with assignment := "C-C" }
  else if strContains p.assignment "CH3 bend" then { p with assignment := "CH3" }
  else if strContains p.assignment "C=O" then { p with assignment := "C=O" }
  else if strContains p.assignment "C-H" then { p with assignment := "C-H" }
  else p

/-- JS `filter((p, i, self) => i === self.findIndex(t => t.assignment ===
p.assignment))`: keep the first occurrence of each assignment. -/
def dedupByAssignment : List IRSpectrumPeak → List IRSpectrumPeak → List IRSpectrumPeak
  | [], acc => acc
  | p :: rest, acc =>
      if acc.any (fun q => q.assignment == p.assignment) then dedupByAssignment rest acc
      else dedupByAssignment rest (acc ++ [p])

/-- Source `simulateIRSpectrum`. -/
def simulateIRSpectrum (e : Env) (s : List Char) : IRSpectrumData :=
  let st := mkIRSpecs e s
  let res := irLoop e st.1 irNumPoints 0 st.2 [] []
  let labeledPeaks := irSort (buildLabeled res.2 [])
  if s = acetoneS then
    { spectrum := res.1,
      peaks := irSort (dedupByAssignment (labeledPeaks.map simplifyIRLabel) []) }
  else { spectrum := res.1, peaks := labeledPeaks }

/-! ## UV-Vis simulation -/

/-- One entry of the source's `transitions` array. -/
structure UVTransition where
  lambdaMax : ℚ
  intensity : ℚ
  width : ℚ
  ttype : String
  deriving DecidableEq

/-- Source `UVPoint`. -/
structure UVPoint where
  wavelength : ℚ
  absorbance : ℚ
  deriving DecidableEq

/-- Source `UVPeak`. -/
structure UVPeak where
  wavelength : ℚ
  absorbance : ℚ
  assignment : String
  transition : String
  deriving DecidableEq

/-- Source `UVSpectrumData`. -/
structure UVSpectrumData where
  spectrum : List UVPoint
  peaks : List UVPeak

abbrev UVTransState := List UVTransition × Nat

def stepUVAromatic (e : Env) (f : MoleculeFeatures) (st : UVTransState) : UVTransState :=
  if f.hasAromatic then
    (st.1 ++ [⟨255 + e.rand st.2 * 15, 0.6 + e.rand (st.2+1) * 0.4,
               15 + e.rand (st.2+2) * 10, "π→π* (aromatic, B band)"⟩,
              ⟨205 + e.rand (st.2+3) * 15, 0.8 + e.rand (st.2+4) * 0.5,
               12 + e.rand (st.2+5) * 8, "π→π* (aromatic, E band)"⟩], st.2 + 6)
  else st

def stepUVCarbonyl (e : Env) (f : MoleculeFeatures) (st : UVTransState) : UVTransState :=
  if f.hasCarbonyl then
    (st.1 ++ [⟨270 + e.rand st.2 * 30, 0.1 + e.rand (st.2+1) * 0.2,
               20 + e.rand (st.2+2) * 10, "n→π* (carbonyl)"⟩], st.2 + 3)
  else st

def stepUVEster (e : Env) (f : MoleculeFeatures) (st : UVTransState) : UVTransState :=
  if f.hasEster then
    (st.1 ++ [⟨205 + e.rand st.2 * 10, 0.3 + e.rand (st.2+1) * 0.2,
               15 + e.rand (st.2+2) * 5, "π→π* (ester)"⟩], st.2 + 3)
  else st

def stepUVAmide (e : Env) (f : MoleculeFeatures) (st : UVTransState) : UVTransState :=
  if f.hasAmide then
    (st.1 ++ [⟨210 + e.rand st.2 * 15, 0.4 + e.rand (st.2+1) * 0.3,
               18 + e.rand (st.2+2) * 7, "π→π* (amide)"⟩], st.2 + 3)
  else st

def stepUVAlkene (e : Env) (f : MoleculeFeatures) (st : UVTransState) : UVTransState :=
  if f.hasAlkene then
    (st.1 ++ [⟨195 + e.rand st.2 * 15, 0.7 + e.rand (st.2+1) * 0.4,
               10 + e.rand (st.2+2) * 5, "π→π* (alkene)"⟩], st.2 + 3)
  else st

/-- Source `simulateUVSpectrum`, transition construction, in source order. -/
def mkUVTransitions (e : Env) (f : MoleculeFeatures) (k0 : Nat) : UVTransState :=
  stepUVAlkene e f (stepUVAmide e f (stepUVEster e f (stepUVCarbonyl e f
    (stepUVAromatic e f ([], k0)))))

def uvBaselineAbsorbance : ℚ := 0.03
def uvNoiseAmplitude : ℚ := 0.005
def uvNumPoints : Nat := (800 - 200) * 2 + 1
def uvSampleStep : ℚ := (800 - 200) / ((uvNumPoints : ℚ) - 1)

/-- Wavelength of UV sample `i`. -/
def uvW (i : Nat) : ℚ := 200 + (i : ℚ) * uvSampleStep

/-- Clamped absorbance of one UV curve sample (`k` = this iteration's
random-draw index). -/
def uvPointA (e : Env) (ts : List UVTransition) (w : ℚ) (k : Nat) : ℚ :=
  let noise := (e.rand k - 0.5) * 2 * uvNoiseAmplitude
  max 0 (uvBaselineAbsorbance + noise +
    (ts.map fun tr => gaussianPeak e w tr.lambdaMax tr.width tr.intensity).sum)

/-- UV sampling loop (one random draw per sample). -/
def uvLoop (e : Env) (ts : List UVTransition) :
    Nat → Nat → Nat → List UVPoint → List UVPoint
  | 0, _, _, pts => pts
  | n + 1, i, k, pts =>
      uvLoop e ts n (i + 1) (k + 1) (pts ++ [⟨uvW i, uvPointA e ts (uvW i) k⟩])

/-- Significance threshold of the UV local-maximum scan. -/
def uvThreshold : ℚ := uvBaselineAbsorbance + uvNoiseAmplitude * 3

/-- Closest-transition labeling: fold with `minDist` starting at Infinity
(modelled as `none`), updating when `dist < minDist` and
`dist < width * 2`. -/
def closestTransitionTo (w : ℚ) (ts : List UVTransition) : String :=
  (ts.foldl
    (fun (st : Option ℚ × String) tr =>
      let dist := |w - tr.lambdaMax|
      let better := match st.1 with
        | none => true
        | some mD => decide (dist < mD)
      if better && decide (dist < tr.width * 2) then (some dist, tr.ttype) else st)
    (none, "Electronic transition")).2

/-- Local-maximum scan over the curve (source loop `i = 1 .. length - 2`),
with the 10 nm de-duplication check. -/
def uvScan (ts : List UVTransition) : List UVPoint → List UVPeak → List UVPeak
  | p0 :: p1 :: p2 :: rest, acc =>
      if decide (p0.absorbance < p1.absorbance) && decide (p2.absorbance < p1.absorbance) &&
          decide (uvThreshold < p1.absorbance) then
        if acc.any (fun p => decide (|p.wavelength - p1.wavelength| < 10)) then
          uvScan ts (p1 :: p2 :: rest) acc
        else
          uvScan ts (p1 :: p2 :: rest)
            (acc ++ [⟨p1.wavelength, p1.absorbance, closestTransitionTo p1.wavelength ts,
                      closestTransitionTo p1.wavelength ts⟩])
      else uvScan ts (p1 :: p2 :: rest) acc
  | _, acc => acc

/-- Source `simulateUVSpectrum`. -/
def simulateUVSpectrum (e : Env) (s : List Char) : UVSpectrumData :=
  let f := analyzeMolecule s
  let st := mkUVTransitions e f 0
  let spectrum := uvLoop e st.1 uvNumPoints 0 st.2 []
  { spectrum := spectrum,
    peaks := (uvScan st.1 spectrum []).mergeSort fun a b =>
      decide (a.wavelength ≤ b.wavelength) }

/-! ## NMR simulation -/

/-- NMR nucleus selector (source parameter `type: "1H" | "13C"`). -/
inductive NMRType
  | h1
  | c13
  deriving DecidableEq

/-- Source `NMRPeak`.  The optional `coupling` field is never assigned
anywhere in the source, so every constructed peak carries `none`. -/
structure NMRPeak where
  shift : ℚ
  intensity : ℚ
  multiplicity : String
  coupling : Option ℚ
  atomIds : List Nat
  assignment : String
  deriving DecidableEq

/-- State of NMR peak construction: peaks, `atomIdCounter`, draw index. -/
structure NMRState where
  peaks : List NMRPeak
  counter : Nat
  k : Nat

/-- One `peaks.push({...})` with a fresh simulated atom id
(`atomIds: [++atomIdCounter]`); `dk` draws were consumed. -/
def nmrPush (st : NMRState) (shift intensity : ℚ) (mult assign : String) (dk : Nat) :
    NMRState :=
  { peaks := st.peaks ++ [⟨shift, intensity, mult, none, [st.counter + 1], assign⟩],
    counter := st.counter + 1, k := st.k + dk }

def step1HAromatic (e : Env) (f : MoleculeFeatures) (st : NMRState) : NMRState :=
  if f.hasAromatic then
    nmrPush st (7.2 + e.rand st.k * 1.3) (0.5 + e.rand (st.k+1) * 0.5) "m" "Aromatic H" 2
  else st

def step1HAlkene (e : Env) (f : MoleculeFeatures) (st : NMRState) : NMRState :=
  if f.hasAlkene then
    nmrPush st (5.5 + e.rand st.k * 1.0) (0.4 + e.rand (st.k+1) * 0.4) "m" "Alkene H" 2
  else st

def step1HAldehyde (e : Env) (s : List Char) (f : MoleculeFeatures) (st : NMRState) : NMRState :=
  if f.hasKetoneAldehyde && (containsSub "C(=O)H".data s || containsSub "C=O)H".data s) then
    nmrPush st (9.5 + e.rand st.k * 0.5) (0.3 + e.rand (st.k+1) * 0.3) "s" "Aldehyde H" 2
  else st

def step1HAcid (e : Env) (f : MoleculeFeatures) (st : NMRState) : NMRState :=
  if f.hasCOOH then
    nmrPush st (10.0 + e.rand st.k * 2.0) (0.2 + e.rand (st.k+1) * 0.2) "bs" "Acid OH" 2
  else st

def step1HOH (e : Env) (f : MoleculeFeatures) (st : NMRState) : NMRState :=
  if f.hasOH then
    nmrPush st (3.0 + e.rand st.k * 2.5) (0.2 + e.rand (st.k+1) * 0.3) "bs" "Alcohol/Phenol OH" 2
  else st

def step1HNH (e : Env) (f : MoleculeFeatures) (st : NMRState) : NMRState :=
  if f.hasNH then
    nmrPush st (2.0 + e.rand st.k * 3.0) (0.2 + e.rand (st.k+1) * 0.3) "bs" "Amine NH" 2
  else st

def step1HAmideNH (e : Env) (f : MoleculeFeatures) (st : NMRState) : NMRState :=
  if f.hasAmideNH then
    nmrPush st (6.0 + e.rand st.k * 2.5) (0.2 + e.rand (st.k+1) * 0.3) "bs" "Amide NH" 2
  else st

def step1HAlpha (e : Env) (f : MoleculeFeatures) (st : NMRState) : NMRState :=
  if f.hasCarbonyl || f.hasEther || f.hasOH then
    nmrPush st (2.2 + e.rand st.k * 1.8) (0.6 + e.rand (st.k+1) * 0.4) "m"
      "H alpha to heteroatom/C=O" 2
  else st

def step1HSp3 (e : Env) (f : MoleculeFeatures) (st : NMRState) : NMRState :=
  if f.hasSp3CH then
    let st1 := nmrPush st (1.3 + e.rand st.k * 0.8) (0.8 + e.rand (st.k+1) * 0.2) "m"
      "Aliphatic CHx" 2
    nmrPush st1 (0.9 + e.rand st1.k * 0.4) (1.0 + e.rand (st1.k+1) * 0.3) "m"
      "Aliphatic CHx (upfield)" 2
  else st

/-- Acetone override for ¹H: clear all generic peaks, emit the single
curated CH3 singlet with explicit atom ids `[1, 2]`. -/
def step1HAcetone (e : Env) (s : List Char) (st : NMRState) : NMRState :=
  if s = acetoneS then
    { peaks := [⟨2.1 + (e.rand st.k - 0.5) * 0.1, 1.0, "s", none, [1, 2], "CH3"⟩],
      counter := st.counter, k := st.k + 1 }
  else st

/-- Source `simulateNMRSpectrum`, proton branch, blocks in source order. -/
def mk1HPeaks (e : Env) (s : List Char) (f : MoleculeFeatures) : NMRState :=
  step1HAcetone e s (step1HSp3 e f (step1HAlpha e f (step1HAmideNH e f
    (step1HNH e f (step1HOH e f (step1HAcid e f (step1HAldehyde e s f
      (step1HAlkene e f (step1HAromatic e f ⟨[], 0, 0⟩)))))))))

def step13CCarbonyl (e : Env) (f : MoleculeFeatures) (st : NMRState) : NMRState :=
  if f.hasCarbonyl then
    let sa : ℚ × String × Nat :=
      if f.hasKetoneAldehyde then (195 + e.rand st.k * 15, "C=O (Ketone/Aldehyde)", st.k + 1)
      else if f.hasEster then (165 + e.rand st.k * 15, "C=O (Ester)", st.k + 1)
      else if f.hasAmide then (160 + e.rand st.k * 15, "C=O (Amide)", st.k + 1)
      else if f.hasCOOH then (170 + e.rand st.k * 15, "C=O (Acid)", st.k + 1)
      else (170, "Carbonyl C", st.k)
    { peaks := st.peaks ++ [⟨sa.1, 0.3 + e.rand sa.2.2 * 0.2, "s", none,
        [st.counter + 1], sa.2.1⟩],
      counter := st.counter + 1, k := sa.2.2 + 1 }
  else st

def step13CAromatic (e : Env) (f : MoleculeFeatures) (st : NMRState) : NMRState :=
  if f.hasAromatic then
    let st1 := nmrPush st (128 + e.rand st.k * 20) (0.6 + e.rand (st.k+1) * 0.3) "s"
      "Aromatic C" 2
    nmrPush st1 (115 + e.rand st1.k * 15) (0.5 + e.rand (st1.k+1) * 0.3) "s" "Aromatic C" 2
  else st

def step13CAlkene (e : Env) (f : MoleculeFeatures) (st : NMRState) : NMRState :=
  if f.hasAlkene then
    nmrPush st (110 + e.rand st.k * 30) (0.5 + e.rand (st.k+1) * 0.3) "s" "Alkene C=C" 2
  else st

def step13CAlkyne (e : Env) (f : MoleculeFeatures) (st : NMRState) : NMRState :=
  if f.hasAlkyne then
    nmrPush st (70 + e.rand st.k * 20) (0.4 + e.rand (st.k+1) * 0.3) "s" "Alkyne C#C" 2
  else st

def step13CCO (e : Env) (f : MoleculeFeatures) (st : NMRState) : NMRState :=
  if f.hasOH || f.hasEther || f.hasEster then
    nmrPush st (55 + e.rand st.k * 25) (0.7 + e.rand (st.k+1) * 0.2) "s" "C-O" 2
  else st

def step13CCN (e : Env) (f : MoleculeFeatures) (st : NMRState) : NMRState :=
  if f.hasNH || f.hasAmide then
    nmrPush st (40 + e.rand st.k * 20) (0.6 + e.rand (st.k+1) * 0.2) "s" "C-N" 2
  else st

def step13CSp3 (e : Env) (f : MoleculeFeatures) (st : NMRState) : NMRState :=
  if f.hasSp3CH then
    let st1 := nmrPush st (25 + e.rand st.k * 20) (0.9 + e.rand (st.k+1) * 0.1) "s"
      "Aliphatic C" 2
    nmrPush st1 (15 + e.rand st1.k * 10) (1.0 + e.rand (st1.k+1) * 0.1) "s"
      "Aliphatic C (upfield)" 2
  else st

/-- Acetone override for ¹³C: clear all generic peaks, emit the two
curated singlets with explicit atom ids. -/
def step13CAcetone (e : Env) (s : List Char) (st : NMRState) : NMRState :=
  if s = acetoneS then
    { peaks := [⟨206 + (e.rand st.k - 0.5) * 2, 0.4, "s", none, [1], "C=O"⟩,
                ⟨30 + (e.rand (st.k+1) - 0.5) * 1, 1.0, "s", none, [2, 3], "CH3"⟩],
      counter := st.counter, k := st.k + 2 }
  else st

/-- Source `simulateNMRSpectrum`, carbon-13 branch, blocks in source order. -/
def mk13CPeaks (e : Env) (s : List Char) (f : MoleculeFeatures) : NMRState :=
  step13CAcetone e s (step13CSp3 e f (step13CCN e f (step13CCO e f
    (step13CAlkyne e f (step13CAlkene e f (step13CAromatic e f
      (step13CCarbonyl e f ⟨[], 0, 0⟩)))))))

/-- Source `simulateNMRSpectrum`: build the peak list for the requested
nucleus, then sort descending by chemical shift
(`peaks.sort((a, b) => b.shift - a.shift)`). -/
def simulateNMRSpectrum (e : Env) (s : List Char) (ty : NMRType) : List NMRPeak :=
  let f := analyzeMolecule s
  let st := match ty with
    | .h1 => mk1HPeaks e s f
    | .c13 => mk13CPeaks e s f
  st.peaks.mergeSort fun a b => decide (b.shift ≤ a.shift)

/-! ## Predicates and helper definitions used by the proofs -/

/-- Invariant of the ¹³C construction: every peak so far is a singlet and
carries no coupling constant. -/
def All13S (st : NMRState) : Prop :=
  ∀ p ∈ st.peaks, p.multiplicity = "s" ∧ p.coupling = none

/-- Feature flags computed by the detector for the acetone descriptor
(the flawed hydroxyl regex also fires on `CC(=O)C`, so `hasOH` is true). -/
def acetoneFeatures : MoleculeFeatures :=
  ⟨true, false, false, false, true, true, false, false, false, false,
   false, false, true, false⟩

/-- Separation property enforced by the IR labeled-peak de-duplication. -/
def IRSep (a b : IRSpectrumPeak) : Prop :=
  ¬(a.assignment = b.assignment ∧ |a.wavenumber - b.wavenumber| < 15)

/-- Separation property enforced by the UV peak de-duplication (stronger:
no label condition at all). -/
def UVSep (a b : UVPeak) : Prop := ¬(|a.wavelength - b.wavelength| < 10)

/-- Lookup in the insertion-ordered minima map. -/
def findMin : MinMap → MinKey → Option (ℚ × ℚ)
  | [], _ => none
  | (k, v) :: rest, key => if k = key then some v else findMin rest key

/-- Provenance invariant: every minima-map entry was written under some
characteristic peak's key while the sample lay inside its window. -/
def MinInv (peaks : List IRPeakInfo) (m : MinMap) : Prop :=
  ∀ kv ∈ m, ∃ p ∈ peaks, keyOf p = kv.1 ∧ |kv.2.1 - p.wavenumber| < checkWindow p

/-- Key distinctness of the minima map (JS `Map` keys are unique). -/
def NodupKeys (m : MinMap) : Prop := (m.map Prod.fst).Nodup

/-! ## General helper lemmas -/

lemma band_if_self (b c : Bool) : (b && (if b = true then false else c)) = false := by
  cases b <;> simp

lemma env0_valid : Env.Valid env0 := by
  refine ⟨?_, ?_, ?_, ?_⟩ <;> intro _ <;> norm_num [env0]

/-! ## Claim C8: the Lorentzian lineshape -/

/-- Counterexample to claim C8 as stated: at `x = 1`, `center = 0`,
`fwhm = 2`, `amplitude = 0`, the function returns the full amplitude
(namely 0) even though `x ≠ center`, so "returns the full amplitude only
in the degenerate case x == center" fails for zero amplitude. -/
theorem C8_lorentzian_counterexample :
    lorentzianPeak 1 0 2 0 = 0 ∧ (1 : ℚ) ≠ 0 := by
  constructor
  · norm_num [lorentzianPeak]
  · norm_num

/-- Claim C8, amended: for every rational `x`, `center`, `fwhm`,
`amplitude`, the Lorentzian returns
`amplitude * (gamma² / ((x-center)² + gamma²))` with `gamma = fwhm/2`
whenever `fwhm > 0`; returns 0 whenever `fwhm ≤ 0`; and — provided the
amplitude is nonzero — returns the full amplitude only in the degenerate
case `x = center`. -/
theorem C8_lorentzian (x x0 fwhm amplitude : ℚ) :
    (0 < fwhm → lorentzianPeak x x0 fwhm amplitude
        = amplitude * ((fwhm / 2) ^ 2 / ((x - x0) ^ 2 + (fwhm / 2) ^ 2))) ∧
    (fwhm ≤ 0 → lorentzianPeak x x0 fwhm amplitude = 0) ∧
    (amplitude ≠ 0 → lorentzianPeak x x0 fwhm amplitude = amplitude → x = x0) := by
  have hform : 0 < fwhm → lorentzianPeak x x0 fwhm amplitude
      = amplitude * ((fwhm / 2) ^ 2 / ((x - x0) ^ 2 + (fwhm / 2) ^ 2)) := by
    intro hf
    have hγ : (0 : ℚ) < fwhm / 2 := by linarith
    have hd : (0 : ℚ) < (x - x0) ^ 2 + (fwhm / 2) ^ 2 := by positivity
    unfold lorentzianPeak
    rw [if_neg (by linarith), if_neg (by linarith)]
  refine ⟨hform, ?_, ?_⟩
  · intro hf
    unfold lorentzianPeak
    rw [if_pos (by linarith)]
  · intro ha heq
    rcases le_or_lt fwhm 0 with hf | hf
    · exfalso
      apply ha
      have h0 : lorentzianPeak x x0 fwhm amplitude = 0 := by
        unfold lorentzianPeak
        rw [if_pos (by linarith)]
      rw [h0] at heq
      exact heq.symm
    · rw [hform hf] at heq
      have hγ : (0 : ℚ) < (fwhm / 2) ^ 2 := by positivity
      have hd : (0 : ℚ) < (x - x0) ^ 2 + (fwhm / 2) ^ 2 := by positivity
      have hfrac : (fwhm / 2) ^ 2 / ((x - x0) ^ 2 + (fwhm / 2) ^ 2) = 1 := by
        have := mul_left_cancel₀ ha (heq.trans (mul_one amplitude).symm)
        exact this
      have hsq : (x - x0) ^ 2 = 0 := by
        have h1 : (fwhm / 2) ^ 2 = (x - x0) ^ 2 + (fwhm / 2) ^ 2 := by
          field_simp at hfrac
          linarith
        linarith
      have := pow_eq_zero_iff (n := 2) (by norm_num) |>.mp hsq
      linarith [sub_eq_zero.mp this]

/-- Witness for the amended C8 at a concrete input. -/
theorem C8_lorentzian_witness :
    lorentzianPeak 0 0 2 5 = 5 * ((2 / 2 : ℚ) ^ 2 / ((0 - 0) ^ 2 + (2 / 2) ^ 2)) :=
  (C8_lorentzian 0 0 2 5).1 (by norm_num)

/-! ## Claim C9: mutually-adjusting feature flags -/

/-- Claim C9: for every descriptor, the detector never reports the
carboxylic-acid flag together with the generic hydroxyl flag, and never
the amide flag together with the generic amine flag: the source
explicitly clears `hasOH` when `hasCOOH` is set and clears `hasNH` when
`hasAmide` is set. -/
theorem C9_mutual_suppression (s : List Char) :
    ((analyzeMolecule s).hasCOOH && (analyzeMolecule s).hasOH) = false ∧
    ((analyzeMolecule s).hasAmide && (analyzeMolecule s).hasNH) = false := by
  by_cases h : s.isEmpty
  · constructor <;> simp [analyzeMolecule, h, noFeatures]
  · constructor <;>
    · unfold analyzeMolecule
      rw [if_neg (by simpa using h)]
      exact band_if_self _ _

/-! ## Claim C10: every ¹³C peak is a singlet without coupling -/

lemma all13S_nmrPush {st : NMRState} {sh int : ℚ} {assign : String} {dk : Nat}
    (h : All13S st) : All13S (nmrPush st sh int "s" assign dk) := by
  intro p hp
  simp only [nmrPush, List.mem_append, List.mem_singleton] at hp
  rcases hp with h' | rfl
  · exact h p h'
  · exact ⟨rfl, rfl⟩

lemma all13S_carbonyl (e : Env) (f : MoleculeFeatures) {st : NMRState}
    (h : All13S st) : All13S (step13CCarbonyl e f st) := by
  unfold step13CCarbonyl
  split
  · intro p hp
    simp only [List.mem_append, List.mem_singleton] at hp
    rcases hp with h' | rfl
    · exact h p h'
    · exact ⟨rfl, rfl⟩
  · exact h

lemma all13S_aromatic (e : Env) (f : MoleculeFeatures) {st : NMRState}
    (h : All13S st) : All13S (step13CAromatic e f st) := by
  unfold step13CAromatic
  split
  · exact all13S_nmrPush (all13S_nmrPush h)
  · exact h

lemma all13S_alkene (e : Env) (f : MoleculeFeatures) {st : NMRState}
    (h : All13S st) : All13S (step13CAlkene e f st) := by
  unfold step13CAlkene
  split
  · exact all13S_nmrPush h
  · exact h

lemma all13S_alkyne (e : Env) (f : MoleculeFeatures) {st : NMRState}
    (h : All13S st) : All13S (step13CAlkyne e f st) := by
  unfold step13CAlkyne
  split
  · exact all13S_nmrPush h
  · exact h

lemma all13S_co (e : Env) (f : MoleculeFeatures) {st : NMRState}
    (h : All13S st) : All13S (step13CCO e f st) := by
  unfold step13CCO
  split
  · exact all13S_nmrPush h
  · exact h

lemma all13S_cn (e : Env) (f : MoleculeFeatures) {st : NMRState}
    (h : All13S st) : All13S (step13CCN e f st) := by
  unfold step13CCN
  split
  · exact all13S_nmrPush h
  · exact h

lemma all13S_sp3 (e : Env) (f : MoleculeFeatures) {st : NMRState}
    (h : All13S st) : All13S (step13CSp3 e f st) := by
  unfold step13CSp3
  split
  · exact all13S_nmrPush (all13S_nmrPush h)
  · exact h

lemma all13S_acetone (e : Env) (s : List Char) {st : NMRState}
    (h : All13S st) : All13S (step13CAcetone e s st) := by
  unfold step13CAcetone
  split
  · intro p hp
    simp only [List.mem_cons, List.mem_singleton] at hp
    rcases hp with rfl | rfl | h'
    · exact ⟨rfl, rfl⟩
    · exact ⟨rfl, rfl⟩
    · cases h'
  · exact h

lemma all13S_mk (e : Env) (s : List Char) (f : MoleculeFeatures) :
    All13S (mk13CPeaks e s f) := by
  unfold mk13CPeaks
  refine all13S_acetone e s (all13S_sp3 e f (all13S_cn e f (all13S_co e f
    (all13S_alkyne e f (all13S_alkene e f (all13S_aromatic e f
      (all13S_carbonyl e f ?_)))))))
  intro p hp
  cases hp

/-- Claim C10: for every descriptor and every outcome of the random
source, every peak of the ¹³C NMR strategy has multiplicity `"s"` and no
coupling constant. -/
theorem C10_c13_singlets (e : Env) (s : List Char) :
    ((simulateNMRSpectrum e s NMRType.c13).all
      fun p => p.multiplicity == "s" && p.coupling.isNone) = true := by
  rw [List.all_eq_true]
  intro p hp
  have hp' : p ∈ (mk13CPeaks e s (analyzeMolecule s)).peaks := by
    have hperm := List.mergeSort_perm
      (mk13CPeaks e s (analyzeMolecule s)).peaks
      (fun a b : NMRPeak => decide (b.shift ≤ a.shift))
    exact hperm.mem_iff.mp (by simpa [simulateNMRSpectrum] using hp)
  obtain ⟨h1, h2⟩ := all13S_mk e s (analyzeMolecule s) p hp'
  simp [h1, h2]

/-! ## Claim C4: acetone ¹H NMR override -/

lemma analyzeMolecule_acetone : analyzeMolecule acetoneS = acetoneFeatures := by decide

lemma simulateNMR_h1 (e : Env) (s : List Char) :
    simulateNMRSpectrum e s NMRType.h1
      = (mk1HPeaks e s (analyzeMolecule s)).peaks.mergeSort
          (fun a b => decide (b.shift ≤ a.shift)) := rfl

lemma simulateNMR_c13 (e : Env) (s : List Char) :
    simulateNMRSpectrum e s NMRType.c13
      = (mk13CPeaks e s (analyzeMolecule s)).peaks.mergeSort
          (fun a b => decide (b.shift ≤ a.shift)) := rfl

lemma mk1H_acetone (e : Env) :
    (mk1HPeaks e acetoneS (analyzeMolecule acetoneS)).peaks
      = [⟨2.1 + (e.rand 8 - 0.5) * 0.1, 1.0, "s", none, [1, 2], "CH3"⟩] := by
  rw [analyzeMolecule_acetone]
  have hc1 : containsSub "C(=O)H".data acetoneS = false := by decide
  have hc2 : containsSub "C=O)H".data acetoneS = false := by decide
  simp [mk1HPeaks, step1HAromatic, step1HAlkene, step1HAldehyde, step1HAcid,
    step1HOH, step1HNH, step1HAmideNH, step1HAlpha, step1HSp3, step1HAcetone,
    nmrPush, acetoneFeatures, hc1, hc2]

/-- Claim C4: for the acetone descriptor and nucleus ¹H, for every outcome
of the random source, the result is exactly one peak, labeled `CH3`, with
shift inside [2.0, 2.2] ppm and multiplicity `"s"` (the curated override
clears the generic peaks and emits this single singlet). -/
theorem C4_acetone_h1 (e : Env) (hv : e.Valid) :
    ∃ p, simulateNMRSpectrum e acetoneS NMRType.h1 = [p] ∧
      p.assignment = "CH3" ∧ 2 ≤ p.shift ∧ p.shift ≤ 2.2 ∧ p.multiplicity = "s" := by
  have h8 := hv.rand_nonneg 8
  have h8' := hv.rand_lt_one 8
  refine ⟨⟨2.1 + (e.rand 8 - 0.5) * 0.1, 1.0, "s", none, [1, 2], "CH3"⟩, ?_, rfl, ?_, ?_, rfl⟩
  · rw [simulateNMR_h1, mk1H_acetone, List.mergeSort_singleton]
  · show (2 : ℚ) ≤ 2.1 + (e.rand 8 - 0.5) * 0.1
    nlinarith
  · show (2.1 : ℚ) + (e.rand 8 - 0.5) * 0.1 ≤ 2.2
    nlinarith

/-- Witness for C4: the valid environment `env0` discharges the
random-source hypothesis. -/
theorem C4_acetone_h1_witness :
    ∃ p, simulateNMRSpectrum env0 acetoneS NMRType.h1 = [p] ∧
      p.assignment = "CH3" ∧ 2 ≤ p.shift ∧ p.shift ≤ 2.2 ∧ p.multiplicity = "s" :=
  C4_acetone_h1 env0 env0_valid

/-! ## Claim C5: curve values are clamped to physical ranges -/

lemma irPointT_lower (e : Env) (peaks : List IRPeakInfo) (w : ℚ) (k : Nat) :
    0.1 ≤ irPointT e peaks w k := le_max_left _ _

lemma irPointT_upper (e : Env) (peaks : List IRPeakInfo) (w : ℚ) (k : Nat) :
    irPointT e peaks w k ≤ 100 := by
  unfold irPointT
  exact max_le (by norm_num) (le_trans (min_le_left _ _) le_rfl)

lemma irLoop_spectrum_bounds (e : Env) (peaks : List IRPeakInfo) :
    ∀ (n i k : Nat) (pts : List (ℚ × ℚ)) (m : MinMap),
      (∀ q ∈ pts, 0.1 ≤ q.2 ∧ q.2 ≤ 100) →
      ∀ q ∈ (irLoop e peaks n i k pts m).1, 0.1 ≤ q.2 ∧ q.2 ≤ 100 := by
  intro n
  induction n with
  | zero => intro i k pts m h; simpa [irLoop] using h
  | succ n ih =>
      intro i k pts m h
      rw [irLoop]
      apply ih
      intro q hq
      rcases List.mem_append.mp hq with h' | h'
      · exact h q h'
      · rcases List.mem_singleton.mp h' with rfl
        exact ⟨irPointT_lower e peaks _ _, irPointT_upper e peaks _ _⟩

lemma simulateIR_spectrum_eq (e : Env) (s : List Char) :
    (simulateIRSpectrum e s).spectrum
      = (irLoop e (mkIRSpecs e s).1 irNumPoints 0 (mkIRSpecs e s).2 [] []).1 := by
  by_cases h : s = acetoneS <;> simp [simulateIRSpectrum, h]

lemma uvLoop_bounds (e : Env) (ts : List UVTransition) :
    ∀ (n i k : Nat) (pts : List UVPoint),
      (∀ q ∈ pts, 0 ≤ q.absorbance) →
      ∀ q ∈ uvLoop e ts n i k pts, 0 ≤ q.absorbance := by
  intro n
  induction n with
  | zero => intro i k pts h; simpa [uvLoop] using h
  | succ n ih =>
      intro i k pts h
      rw [uvLoop]
      apply ih
      intro q hq
      rcases List.mem_append.mp hq with h' | h'
      · exact h q h'
      · rcases List.mem_singleton.mp h' with rfl
        exact le_max_left _ _

/-- Claim C5: for every descriptor and random outcome, every IR curve
point's transmittance lies in [0.1, 100] and every UV-Vis curve point's
absorbance is non-negative (both are explicit clamps in the source). -/
theorem C5_curve_clamped (e : Env) (s : List Char) :
    ((simulateIRSpectrum e s).spectrum.all fun q =>
      decide (0.1 ≤ q.2) && decide (q.2 ≤ 100)) = true ∧
    ((simulateUVSpectrum e s).spectrum.all fun q => decide (0 ≤ q.absorbance)) = true := by
  constructor
  · rw [List.all_eq_true]
    intro q hq
    rw [simulateIR_spectrum_eq] at hq
    obtain ⟨h1, h2⟩ := irLoop_spectrum_bounds e _ irNumPoints 0 _ [] []
      (by intro q hq; cases hq) q hq
    simp [h1, h2]
  · rw [List.all_eq_true]
    intro q hq
    have hq' : q ∈ uvLoop e (mkUVTransitions e (analyzeMolecule s) 0).1 uvNumPoints 0
        (mkUVTransitions e (analyzeMolecule s) 0).2 [] := by
      simpa [simulateUVSpectrum] using hq
    have := uvLoop_bounds e _ uvNumPoints 0 _ [] (by intro q hq; cases hq) q hq'
    simp [this]

/-! ## Claim C6: output peak lists are sorted -/

lemma pairwise_mergeSort_of {α : Type} (r : α → α → Prop) [DecidableRel r]
    (htrans : ∀ a b c, r a b → r b c → r a c) (htotal : ∀ a b, r a b ∨ r b a)
    (l : List α) :
    List.Pairwise r (l.mergeSort fun a b => decide (r a b)) := by
  refine (List.sorted_mergeSort ?_ ?_ l).imp ?_
  · intro a b c hab hbc
    rw [decide_eq_true_eq] at hab hbc ⊢
    exact htrans a b c hab hbc
  · intro a b
    rcases htotal a b with h | h <;> simp [h]
  · intro a b hab
    exact of_decide_eq_true hab

lemma irSort_pairwise (l : List IRSpectrumPeak) :
    List.Pairwise (fun a b => a.wavenumber ≤ b.wavenumber) (irSort l) :=
  pairwise_mergeSort_of (fun a b => a.wavenumber ≤ b.wavenumber)
    (fun _ _ _ => le_trans) (fun a b => le_total a.wavenumber b.wavenumber) l

lemma irSort_perm (l : List IRSpectrumPeak) : (irSort l).Perm l :=
  List.mergeSort_perm l _

lemma simulateIR_peaks_cases (e : Env) (s : List Char) :
    (s = acetoneS ∧ (simulateIRSpectrum e s).peaks
        = irSort (dedupByAssignment
            ((irSort (buildLabeled (irLoop e (mkIRSpecs e s).1 irNumPoints 0
              (mkIRSpecs e s).2 [] []).2 [])).map simplifyIRLabel) [])) ∨
    (s ≠ acetoneS ∧ (simulateIRSpectrum e s).peaks
        = irSort (buildLabeled (irLoop e (mkIRSpecs e s).1 irNumPoints 0
            (mkIRSpecs e s).2 [] []).2 [])) := by
  by_cases h : s = acetoneS
  · exact Or.inl ⟨h, by simp [simulateIRSpectrum, h]⟩
  · exact Or.inr ⟨h, by simp [simulateIRSpectrum, h]⟩

/-- Claim C6: NMR peak lists are sorted non-increasing by chemical shift,
and the IR and UV-Vis labeled peak lists non-decreasing by their axis
coordinate (each strategy ends in the corresponding comparator sort). -/
theorem C6_sorted (e : Env) (s : List Char) (ty : NMRType) :
    List.Pairwise (fun a b => b.shift ≤ a.shift) (simulateNMRSpectrum e s ty) ∧
    List.Pairwise (fun a b => a.wavenumber ≤ b.wavenumber) (simulateIRSpectrum e s).peaks ∧
    List.Pairwise (fun a b => a.wavelength ≤ b.wavelength) (simulateUVSpectrum e s).peaks := by
  refine ⟨?_, ?_, ?_⟩
  · have h := pairwise_mergeSort_of (fun a b : NMRPeak => b.shift ≤ a.shift)
      (fun _ _ _ h1 h2 => le_trans h2 h1) (fun a b => le_total b.shift a.shift)
      (match ty with
        | .h1 => mk1HPeaks e s (analyzeMolecule s)
        | .c13 => mk13CPeaks e s (analyzeMolecule s)).peaks
    cases ty
    · simpa [simulateNMR_h1] using h
    · simpa [simulateNMR_c13] using h
  · rcases simulateIR_peaks_cases e s with ⟨_, hpk⟩ | ⟨_, hpk⟩ <;>
      · rw [hpk]; exact irSort_pairwise _
  · have h := pairwise_mergeSort_of (fun a b : UVPeak => a.wavelength ≤ b.wavelength)
      (fun _ _ _ => le_trans) (fun a b => le_total _ _)
      (uvScan (mkUVTransitions e (analyzeMolecule s) 0).1
        (uvLoop e (mkUVTransitions e (analyzeMolecule s) 0).1 uvNumPoints 0
          (mkUVTransitions e (analyzeMolecule s) 0).2 []) [])
    simpa [simulateUVSpectrum] using h

/-! ## Claim C7: label de-duplication distances -/

lemma irSep_symm : ∀ {a b : IRSpectrumPeak}, IRSep a b → IRSep b a := by
  intro a b h hc
  exact h ⟨hc.1.symm, by rw [abs_sub_comm]; exact hc.2⟩

lemma uvSep_symm : ∀ {a b : UVPeak}, UVSep a b → UVSep b a := by
  intro a b h hc
  exact h (by rw [abs_sub_comm]; exact hc)

lemma buildLabeled_pairwise :
    ∀ (m : MinMap) (acc : List IRSpectrumPeak),
      List.Pairwise IRSep acc → List.Pairwise IRSep (buildLabeled m acc)
  | [], _, h => h
  | (key, v) :: rest, acc, h => by
      simp only [buildLabeled]
      split
      · split
        · exact buildLabeled_pairwise rest acc h
        · next hany =>
            apply buildLabeled_pairwise rest
            rw [List.pairwise_append]
            refine ⟨h, List.pairwise_singleton _ _, ?_⟩
            intro a ha b hb
            rcases List.mem_singleton.mp hb with rfl
            rintro ⟨hassign, hdist⟩
            have hf : (acc.any fun lp =>
                decide (|lp.wavenumber - v.1| < 15) && lp.assignment == key.1) = false := by
              revert hany
              cases acc.any fun lp =>
                decide (|lp.wavenumber - v.1| < 15) && lp.assignment == key.1 <;> simp
            rw [List.any_eq_false] at hf
            have hcontra := hf a ha
            simp only [Bool.and_eq_true, decide_eq_true_eq, beq_iff_eq, not_and] at hcontra
            exact hcontra hdist hassign
      · exact buildLabeled_pairwise rest acc h

lemma dedup_pairwise :
    ∀ (l acc : List IRSpectrumPeak),
      List.Pairwise (fun a b => a.assignment ≠ b.assignment) acc →
      List.Pairwise (fun a b => a.assignment ≠ b.assignment) (dedupByAssignment l acc)
  | [], _, h => h
  | p :: rest, acc, h => by
      simp only [dedupByAssignment]
      split
      · exact dedup_pairwise rest acc h
      · next hany =>
          have hf : (acc.any fun q => q.assignment == p.assignment) = false := by
            revert hany
            cases acc.any fun q => q.assignment == p.assignment <;> simp
          rw [List.any_eq_false] at hf
          apply dedup_pairwise rest
          rw [List.pairwise_append]
          refine ⟨h, List.pairwise_singleton _ _, ?_⟩
          intro a ha b hb
          rcases List.mem_singleton.mp hb with rfl
          have := hf a ha
          simpa [beq_iff_eq] using this

lemma uvScan_pairwise (ts : List UVTransition) :
    ∀ (pts : List UVPoint) (acc : List UVPeak),
      List.Pairwise UVSep acc → List.Pairwise UVSep (uvScan ts pts acc)
  | [], _, h => h
  | [_], _, h => h
  | [_, _], _, h => h
  | p0 :: p1 :: p2 :: rest, acc, h => by
      simp only [uvScan]
      split
      · split
        · exact uvScan_pairwise ts _ acc h
        · next hany =>
            apply uvScan_pairwise ts
            rw [List.pairwise_append]
            refine ⟨h, List.pairwise_singleton _ _, ?_⟩
            intro a ha b hb
            rcases List.mem_singleton.mp hb with rfl
            intro hdist
            have hf : (acc.any fun p => decide (|p.wavelength - p1.wavelength| < 10)) = false := by
              revert hany
              cases acc.any fun p => decide (|p.wavelength - p1.wavelength| < 10) <;> simp
            rw [List.any_eq_false] at hf
            have := hf a ha
            simp only [decide_eq_true_eq] at this
            exact this hdist
      · exact uvScan_pairwise ts _ acc h

/-- Claim C7: no two labeled peaks of the same IR result share a label
within 15 wavenumbers of each other, and no two labeled peaks of the same
UV-Vis result share a label within 10 nm (the UV de-duplication is even
label-independent). -/
theorem C7_dedup_separation (e : Env) (s : List Char) :
    List.Pairwise
      (fun a b => ¬(a.assignment = b.assignment ∧ |a.wavenumber - b.wavenumber| < 15))
      (simulateIRSpectrum e s).peaks ∧
    List.Pairwise
      (fun a b => ¬(a.assignment = b.assignment ∧ |a.wavelength - b.wavelength| < 10))
      (simulateUVSpectrum e s).peaks := by
  constructor
  · rcases simulateIR_peaks_cases e s with ⟨_, hpk⟩ | ⟨_, hpk⟩ <;> rw [hpk]
    · have hd := dedup_pairwise
        ((irSort (buildLabeled (irLoop e (mkIRSpecs e s).1 irNumPoints 0
          (mkIRSpecs e s).2 [] []).2 [])).map simplifyIRLabel) [] List.Pairwise.nil
      have hsorted := (List.Perm.pairwise_iff
        (fun h => h ∘ Eq.symm) (irSort_perm _)).mpr hd
      exact hsorted.imp fun hne hc => hne hc.1
    · have hb := buildLabeled_pairwise (irLoop e (mkIRSpecs e s).1 irNumPoints 0
        (mkIRSpecs e s).2 [] []).2 [] List.Pairwise.nil
      exact (List.Perm.pairwise_iff (fun h => irSep_symm h) (irSort_perm _)).mpr hb
  · have hs := uvScan_pairwise (mkUVTransitions e (analyzeMolecule s) 0).1
      (uvLoop e (mkUVTransitions e (analyzeMolecule s) 0).1 uvNumPoints 0
        (mkUVTransitions e (analyzeMolecule s) 0).2 []) [] List.Pairwise.nil
    have hperm : ((uvScan (mkUVTransitions e (analyzeMolecule s) 0).1
        (uvLoop e (mkUVTransitions e (analyzeMolecule s) 0).1 uvNumPoints 0
          (mkUVTransitions e (analyzeMolecule s) 0).2 []) []).mergeSort fun a b =>
            decide (a.wavelength ≤ b.wavelength)).Perm
        (uvScan (mkUVTransitions e (analyzeMolecule s) 0).1
          (uvLoop e (mkUVTransitions e (analyzeMolecule s) 0).1 uvNumPoints 0
            (mkUVTransitions e (analyzeMolecule s) 0).2 []) []) :=
      List.mergeSort_perm _ _
    have hsorted := (List.Perm.pairwise_iff (fun h => uvSep_symm h) hperm).mpr hs
    have : List.Pairwise UVSep (simulateUVSpectrum e s).peaks := by
      simpa [simulateUVSpectrum] using hsorted
    exact this.imp fun hne hc => hne hc.2

/-! ## Minima-map machinery for the IR peak-extraction proofs -/

lemma findMin_some_mem :
    ∀ (m : MinMap) (K : MinKey) (v : ℚ × ℚ), findMin m K = some v → (K, v) ∈ m
  | [], _, _, h => by cases h
  | (k, v0) :: rest, K, v, h => by
      rw [findMin] at h
      split at h
      · next heq =>
          cases h
          subst heq
          exact List.mem_cons_self _ _
      · exact List.mem_cons_of_mem _ (findMin_some_mem rest K v h)

/-- Full characterisation of a `Map.set`-style minima update as seen
through lookup. -/
lemma findMin_updMin :
    ∀ (m : MinMap) (K K' : MinKey) (w t : ℚ),
      findMin (updMin m K w t) K' =
        if K = K' then
          (match findMin m K with
           | none => some (w, t)
           | some v0 => if t < v0.2 then some (w, t) else some v0)
        else findMin m K'
  | [], K, K', w, t => by
      by_cases h : K = K' <;> simp [updMin, findMin, h]
  | (k, v0) :: rest, K, K', w, t => by
      by_cases hkK : k = K
      · subst hkK
        by_cases hkK' : k = K'
        · subst hkK'
          by_cases hlt : t < v0.2 <;> simp [updMin, findMin, hlt]
        · by_cases hlt : t < v0.2 <;> simp [updMin, findMin, hlt, hkK']
      · by_cases hkK' : k = K'
        · subst hkK'
          have hKk : ¬(K = k) := fun h => hkK h.symm
          simp [updMin, findMin, hkK, hKk]
        · have h1 : updMin ((k, v0) :: rest) K w t = (k, v0) :: updMin rest K w t := by
            rw [updMin, if_neg hkK]
          have h2 : findMin ((k, v0) :: rest) K = findMin rest K := by
            rw [findMin, if_neg hkK]
          have h3 : findMin ((k, v0) :: rest) K' = findMin rest K' := by
            rw [findMin, if_neg hkK']
          rw [h1, findMin, if_neg hkK', h2, h3, findMin_updMin rest K K' w t]

lemma updMin_write (m : MinMap) (K : MinKey) (w t : ℚ) :
    ∃ v, findMin (updMin m K w t) K = some v ∧ v.2 ≤ t := by
  rw [findMin_updMin, if_pos rfl]
  rcases hm : findMin m K with _ | v0
  · exact ⟨(w, t), rfl, le_refl _⟩
  · by_cases hlt : t < v0.2
    · refine ⟨(w, t), ?_, le_refl _⟩
      simp [hlt]
    · refine ⟨v0, ?_, le_of_not_lt hlt⟩
      simp [hlt]

lemma updMin_preserve (m : MinMap) (K : MinKey) (w t : ℚ) (K' : MinKey) (B : ℚ)
    (h : ∃ v, findMin m K' = some v ∧ v.2 ≤ B) :
    ∃ v, findMin (updMin m K w t) K' = some v ∧ v.2 ≤ B := by
  obtain ⟨v, hv, hle⟩ := h
  rw [findMin_updMin]
  by_cases hKK' : K = K'
  · subst hKK'
    rw [if_pos rfl, hv]
    by_cases hlt : t < v.2
    · refine ⟨(w, t), ?_, le_trans (le_of_lt hlt) hle⟩
      simp [hlt]
    · refine ⟨v, ?_, hle⟩
      simp [hlt]
  · rw [if_neg hKK']
    exact ⟨v, hv, hle⟩

lemma updMin_mem :
    ∀ (m : MinMap) (K : MinKey) (w t : ℚ) (kv : MinKey × (ℚ × ℚ)),
      kv ∈ updMin m K w t → kv ∈ m ∨ kv = (K, (w, t))
  | [], K, w, t, kv, h => by
      rw [updMin] at h
      rcases List.mem_singleton.mp h with rfl
      exact Or.inr rfl
  | (k, v0) :: rest, K, w, t, kv, h => by
      rw [updMin] at h
      split at h
      · split at h
        · rcases List.mem_cons.mp h with rfl | h'
          · exact Or.inr (by next heq _ => rw [heq])
          · exact Or.inl (List.mem_cons_of_mem _ h')
        · rcases List.mem_cons.mp h with rfl | h'
          · exact Or.inl (List.mem_cons_self _ _)
          · exact Or.inl (List.mem_cons_of_mem _ h')
      · rcases List.mem_cons.mp h with rfl | h'
        · exact Or.inl (List.mem_cons_self _ _)
        · rcases updMin_mem rest K w t kv h' with h'' | h''
          · exact Or.inl (List.mem_cons_of_mem _ h'')
          · exact Or.inr h''

lemma trackMinima_preserve (w t : ℚ) (K : MinKey) (B : ℚ) :
    ∀ (peaks : List IRPeakInfo) (m : MinMap),
      (∃ v, findMin m K = some v ∧ v.2 ≤ B) →
      ∃ v, findMin (trackMinima peaks w t m) K = some v ∧ v.2 ≤ B
  | [], _, h => h
  | p :: rest, m, h => by
      have hstep : ∃ v, findMin (if |w - p.wavenumber| < checkWindow p
          then updMin m (keyOf p) w t else m) K = some v ∧ v.2 ≤ B := by
        split
        · exact updMin_preserve m (keyOf p) w t K B h
        · exact h
      exact trackMinima_preserve w t K B rest _ hstep

lemma trackMinima_write (w t : ℚ) :
    ∀ (peaks : List IRPeakInfo) (m : MinMap) (p : IRPeakInfo),
      p ∈ peaks → |w - p.wavenumber| < checkWindow p →
      ∃ v, findMin (trackMinima peaks w t m) (keyOf p) = some v ∧ v.2 ≤ t
  | [], _, _, hp, _ => absurd hp (List.not_mem_nil _)
  | q :: rest, m, p, hp, hw => by
      rcases List.mem_cons.mp hp with rfl | hp'
      · have h1 : ∃ v, findMin (if |w - p.wavenumber| < checkWindow p
            then updMin m (keyOf p) w t else m) (keyOf p) = some v ∧ v.2 ≤ t := by
          rw [if_pos hw]
          exact updMin_write m (keyOf p) w t
        exact trackMinima_preserve w t (keyOf p) t rest _ h1
      · exact trackMinima_write w t rest _ p hp' hw

lemma irLoop_preserve (e : Env) (peaks : List IRPeakInfo) (K : MinKey) (B : ℚ) :
    ∀ (n i k : Nat) (pts : List (ℚ × ℚ)) (m : MinMap),
      (∃ v, findMin m K = some v ∧ v.2 ≤ B) →
      ∃ v, findMin (irLoop e peaks n i k pts m).2 K = some v ∧ v.2 ≤ B := by
  intro n
  induction n with
  | zero => intro i k pts m h; simpa [irLoop] using h
  | succ n ih =>
      intro i k pts m h
      rw [irLoop]
      exact ih _ _ _ _ (trackMinima_preserve _ _ K B peaks m h)

/-- Hitting lemma: if some sample of the sweep falls inside a peak's
proximity window, the final minima map holds an entry for that peak's key
whose stored transmittance is at most the (clamped) value of that
sample. -/
lemma irLoop_hit (e : Env) (peaks : List IRPeakInfo) (p : IRPeakInfo) (hp : p ∈ peaks) :
    ∀ (n j i k : Nat) (pts : List (ℚ × ℚ)) (m : MinMap),
      j < n → |irW (i + j) - p.wavenumber| < checkWindow p →
      ∃ v, findMin (irLoop e peaks n i k pts m).2 (keyOf p) = some v ∧
        v.2 ≤ irPointT e peaks (irW (i + j)) (k + 2 * j) := by
  intro n
  induction n with
  | zero => intro j i k pts m hj; exact absurd hj (Nat.not_lt_zero j)
  | succ n ih =>
      intro j i k pts m hj hw
      cases j with
      | zero =>
          have hw' : |irW i - p.wavenumber| < checkWindow p := by simpa using hw
          rw [irLoop]
          have h1 := trackMinima_write (irW i) (irPointT e peaks (irW i) k) peaks m p hp hw'
          have h2 := irLoop_preserve e peaks (keyOf p) (irPointT e peaks (irW i) k)
            n (i+1) (k+2) (pts ++ [(irW i, irPointT e peaks (irW i) k)]) _ h1
          simpa using h2
      | succ j' =>
          have harg : i + (j' + 1) = (i + 1) + j' := by omega
          have hk : k + 2 * (j' + 1) = (k + 2) + 2 * j' := by ring
          rw [harg, hk, irLoop]
          exact ih j' (i+1) (k+2) _ _ (by omega) (by rw [← harg]; exact hw)

lemma minInv_updMin {peaks : List IRPeakInfo} {m : MinMap} (h : MinInv peaks m)
    {K : MinKey} {w t : ℚ}
    (hK : ∃ p ∈ peaks, keyOf p = K ∧ |w - p.wavenumber| < checkWindow p) :
    MinInv peaks (updMin m K w t) := by
  intro kv hkv
  rcases updMin_mem m K w t kv hkv with h' | rfl
  · exact h kv h'
  · simpa using hK

lemma minInv_trackMinima {peaks : List IRPeakInfo} (w t : ℚ) :
    ∀ (l : List IRPeakInfo), (∀ q ∈ l, q ∈ peaks) → ∀ (m : MinMap), MinInv peaks m →
      MinInv peaks (trackMinima l w t m)
  | [], _, _, h => h
  | q :: rest, hl, m, h => by
      have hq : q ∈ peaks := hl q (List.mem_cons_self _ _)
      have hstep : MinInv peaks (if |w - q.wavenumber| < checkWindow q
          then updMin m (keyOf q) w t else m) := by
        split
        · next hcond => exact minInv_updMin h ⟨q, hq, rfl, hcond⟩
        · exact h
      exact minInv_trackMinima w t rest (fun x hx => hl x (List.mem_cons_of_mem _ hx)) _ hstep

lemma minInv_irLoop (e : Env) (peaks : List IRPeakInfo) :
    ∀ (n i k : Nat) (pts : List (ℚ × ℚ)) (m : MinMap), MinInv peaks m →
      MinInv peaks (irLoop e peaks n i k pts m).2 := by
  intro n
  induction n with
  | zero => intro i k pts m h; simpa [irLoop] using h
  | succ n ih =>
      intro i k pts m h
      rw [irLoop]
      exact ih _ _ _ _ (minInv_trackMinima _ _ peaks (fun _ hx => hx) m h)

lemma updMin_keys_sub (m : MinMap) (K : MinKey) (w t : ℚ) (x : MinKey)
    (hx : x ∈ (updMin m K w t).map Prod.fst) : x ∈ m.map Prod.fst ∨ x = K := by
  rcases List.mem_map.mp hx with ⟨kv, hkv, rfl⟩
  rcases updMin_mem m K w t kv hkv with h | rfl
  · exact Or.inl (List.mem_map.mpr ⟨kv, h, rfl⟩)
  · exact Or.inr rfl

lemma nodupKeys_updMin :
    ∀ (m : MinMap) (K : MinKey) (w t : ℚ), NodupKeys m → NodupKeys (updMin m K w t)
  | [], K, w, t, _ => by simp [updMin, NodupKeys]
  | (k, v0) :: rest, K, w, t, h => by
      have h0 : (k :: rest.map Prod.fst).Nodup := by
        rwa [NodupKeys, List.map_cons] at h
      have h' := List.nodup_cons.mp h0
      rw [updMin]
      split
      · split
        · rw [NodupKeys, List.map_cons, List.nodup_cons]
          exact h'
        · rw [NodupKeys, List.map_cons, List.nodup_cons]
          exact h'
      · next hne =>
          rw [NodupKeys, List.map_cons, List.nodup_cons]
          constructor
          · intro hmem
            rcases updMin_keys_sub rest K w t k hmem with hmem' | rfl
            · exact h'.1 hmem'
            · exact hne rfl
          · exact nodupKeys_updMin rest K w t h'.2

lemma nodupKeys_trackMinima (w t : ℚ) :
    ∀ (l : List IRPeakInfo) (m : MinMap), NodupKeys m → NodupKeys (trackMinima l w t m)
  | [], _, h => h
  | q :: rest, m, h => by
      have hstep : NodupKeys (if |w - q.wavenumber| < checkWindow q
          then updMin m (keyOf q) w t else m) := by
        split
        · exact nodupKeys_updMin m _ w t h
        · exact h
      exact nodupKeys_trackMinima w t rest _ hstep

lemma nodupKeys_irLoop (e : Env) (peaks : List IRPeakInfo) :
    ∀ (n i k : Nat) (pts : List (ℚ × ℚ)) (m : MinMap), NodupKeys m →
      NodupKeys (irLoop e peaks n i k pts m).2 := by
  intro n
  induction n with
  | zero => intro i k pts m h; simpa [irLoop] using h
  | succ n ih =>
      intro i k pts m h
      rw [irLoop]
      exact ih _ _ _ _ (nodupKeys_trackMinima _ _ peaks m h)

lemma findMin_eq_of_mem :
    ∀ (m : MinMap), NodupKeys m → ∀ kv ∈ m, findMin m kv.1 = some kv.2
  | [], _, kv, h => absurd h (List.not_mem_nil _)
  | (k, v0) :: rest, hnd, kv, h => by
      have h0 : (k :: rest.map Prod.fst).Nodup := by
        rwa [NodupKeys, List.map_cons] at hnd
      have h' := List.nodup_cons.mp h0
      rcases List.mem_cons.mp h with rfl | hmem
      · rw [findMin, if_pos rfl]
      · have hk : k ≠ kv.1 := by
          intro he
          exact h'.1 (he ▸ List.mem_map.mpr ⟨kv, hmem, rfl⟩)
        rw [findMin, if_neg hk]
        exact findMin_eq_of_mem rest h'.2 kv hmem

/-! ## Labeled-peak builder lemmas -/

lemma buildLabeled_append :
    ∀ (m : MinMap) (acc : List IRSpectrumPeak), ∃ ext, buildLabeled m acc = acc ++ ext
  | [], acc => ⟨[], by simp [buildLabeled]⟩
  | (key, v) :: rest, acc => by
      simp only [buildLabeled]
      split
      · split
        · exact buildLabeled_append rest acc
        · obtain ⟨ext, hext⟩ := buildLabeled_append rest (acc ++ [⟨v.1, v.2, key.1⟩])
          exact ⟨⟨v.1, v.2, key.1⟩ :: ext, by rw [hext, List.append_assoc]; rfl⟩
      · exact buildLabeled_append rest acc

lemma buildLabeled_mem_acc {m : MinMap} {acc : List IRSpectrumPeak} {q : IRSpectrumPeak}
    (hq : q ∈ acc) : q ∈ buildLabeled m acc := by
  obtain ⟨ext, hext⟩ := buildLabeled_append m acc
  rw [hext]
  exact List.mem_append_left _ hq

lemma buildLabeled_sources :
    ∀ (m : MinMap) (acc : List IRSpectrumPeak) (q : IRSpectrumPeak),
      q ∈ buildLabeled m acc →
      q ∈ acc ∨ ∃ kv ∈ m, q = ⟨kv.2.1, kv.2.2, kv.1.1⟩
  | [], acc, q, h => Or.inl (by simpa [buildLabeled] using h)
  | (key, v) :: rest, acc, q, h => by
      simp only [buildLabeled] at h
      split at h
      · split at h
        · rcases buildLabeled_sources rest acc q h with h' | ⟨kv, hkv, hq⟩
          · exact Or.inl h'
          · exact Or.inr ⟨kv, List.mem_cons_of_mem _ hkv, hq⟩
        · rcases buildLabeled_sources rest _ q h with h' | ⟨kv, hkv, hq⟩
          · rcases List.mem_append.mp h' with h'' | h''
            · exact Or.inl h''
            · rcases List.mem_singleton.mp h'' with rfl
              exact Or.inr ⟨(key, v), List.mem_cons_self _ _, rfl⟩
          · exact Or.inr ⟨kv, List.mem_cons_of_mem _ hkv, hq⟩
      · rcases buildLabeled_sources rest acc q h with h' | ⟨kv, hkv, hq⟩
        · exact Or.inl h'
        · exact Or.inr ⟨kv, List.mem_cons_of_mem _ hkv, hq⟩

lemma buildLabeled_ne_nil :
    ∀ (m : MinMap) (acc : List IRSpectrumPeak),
      ((∃ kv ∈ m, kv.2.2 < irBaselineLevel - irNoiseAmplitude * 2.5) ∨ acc ≠ []) →
      buildLabeled m acc ≠ []
  | [], acc, h => by
      rcases h with ⟨kv, hkv, _⟩ | hne
      · cases hkv
      · simpa [buildLabeled] using hne
  | (key, v) :: rest, acc, h => by
      simp only [buildLabeled]
      split
      · split
        · next hany =>
            apply buildLabeled_ne_nil rest acc
            right
            intro hnil
            rw [hnil] at hany
            simp at hany
        · apply buildLabeled_ne_nil rest _
          right
          simp
      · next hthr =>
          apply buildLabeled_ne_nil rest acc
          rcases h with ⟨kv, hkv, hlt⟩ | hne
          · rcases List.mem_cons.mp hkv with rfl | hkv'
            · exact absurd hlt hthr
            · exact Or.inl ⟨kv, hkv', hlt⟩
          · exact Or.inr hne

lemma buildLabeled_mem_unique (A : String) (w t : ℚ) :
    ∀ (m : MinMap) (acc : List IRSpectrumPeak),
      (∃ kv ∈ m, kv.1.1 = A) →
      (∀ kv ∈ m, kv.1.1 = A → kv.2.1 = w ∧ kv.2.2 = t) →
      t < irBaselineLevel - irNoiseAmplitude * 2.5 →
      (∀ a ∈ acc, a.assignment ≠ A) →
      (⟨w, t, A⟩ : IRSpectrumPeak) ∈ buildLabeled m acc
  | [], _, hex, _, _, _ => by
      obtain ⟨kv, hkv, _⟩ := hex
      cases hkv
  | (key, v) :: rest, acc, hex, hall, hthr, hacc => by
      by_cases hA : key.1 = A
      · obtain ⟨hw, ht⟩ := hall (key, v) (List.mem_cons_self _ _) hA
        simp only [buildLabeled]
        rw [if_pos (by rw [ht]; exact hthr)]
        have hanyf : (acc.any fun lp =>
            decide (|lp.wavenumber - v.1| < 15) && lp.assignment == key.1) = false := by
          rw [List.any_eq_false]
          intro lp hlp
          simp only [Bool.and_eq_true, decide_eq_true_eq, beq_iff_eq, not_and]
          intro _ hassign
          exact hacc lp hlp (hA ▸ hassign)
        rw [if_neg (by simp [hanyf])]
        have heq : (⟨w, t, A⟩ : IRSpectrumPeak) = ⟨v.1, v.2, key.1⟩ := by
          rw [hw, ht, hA]
        rw [heq]
        exact buildLabeled_mem_acc (List.mem_append_right _ (List.mem_singleton.mpr rfl))
      · have hex' : ∃ kv ∈ rest, kv.1.1 = A := by
          obtain ⟨kv, hkv, hkvA⟩ := hex
          rcases List.mem_cons.mp hkv with rfl | h'
          · exact absurd hkvA hA
          · exact ⟨kv, h', hkvA⟩
        have hall' : ∀ kv ∈ rest, kv.1.1 = A → kv.2.1 = w ∧ kv.2.2 = t :=
          fun kv hkv => hall kv (List.mem_cons_of_mem _ hkv)
        simp only [buildLabeled]
        split
        · split
          · exact buildLabeled_mem_unique A w t rest acc hex' hall' hthr hacc
          · apply buildLabeled_mem_unique A w t rest _ hex' hall' hthr
            intro a ha
            rcases List.mem_append.mp ha with h' | h'
            · exact hacc a h'
            · rcases List.mem_singleton.mp h' with rfl
              simpa using hA
        · exact buildLabeled_mem_unique A w t rest acc hex' hall' hthr hacc

/-! ## Lorentzian contribution bounds -/

lemma lorentzianPeak_nonneg (x x0 f a : ℚ) (ha : 0 ≤ a) : 0 ≤ lorentzianPeak x x0 f a := by
  simp only [lorentzianPeak]
  split
  · exact le_refl (0 : ℚ)
  · split
    · split
      · exact ha
      · exact le_refl (0 : ℚ)
    · apply mul_nonneg ha
      apply div_nonneg (sq_nonneg _)
      positivity

lemma lorentzianPeak_of_pos (x x0 f a : ℚ) (hf : 0 < f) :
    lorentzianPeak x x0 f a = a * ((f / 2) ^ 2 / ((x - x0) ^ 2 + (f / 2) ^ 2)) := by
  have hγ : (0 : ℚ) < f / 2 := by linarith
  have hd : (0 : ℚ) < (x - x0) ^ 2 + (f / 2) ^ 2 := by positivity
  simp only [lorentzianPeak]
  rw [if_neg (by linarith), if_neg (ne_of_gt hd)]

lemma lorentzianPeak_ge (x c f a A0 g0 : ℚ) (hf : 0 < f) (hA0 : 0 ≤ A0) (ha : A0 ≤ a)
    (hg : g0 ≤ (f / 2) ^ 2) (hg0 : 0 < g0) (hd : (x - c) ^ 2 ≤ 1 / 16) :
    A0 * (g0 / (1 / 16 + g0)) ≤ lorentzianPeak x c f a := by
  rw [lorentzianPeak_of_pos x c f a hf]
  have hdenpos : (0 : ℚ) < (x - c) ^ 2 + (f / 2) ^ 2 := by positivity
  have hg0' : (0 : ℚ) < 1 / 16 + g0 := by linarith
  have hfrac : g0 / (1 / 16 + g0) ≤ (f / 2) ^ 2 / ((x - c) ^ 2 + (f / 2) ^ 2) := by
    rw [div_le_div_iff₀ hg0' hdenpos]
    nlinarith [mul_le_mul_of_nonneg_left hd (le_of_lt hg0),
      mul_le_mul_of_nonneg_right hg (by norm_num : (0:ℚ) ≤ 1/16)]
  calc A0 * (g0 / (1 / 16 + g0))
      ≤ A0 * ((f / 2) ^ 2 / ((x - c) ^ 2 + (f / 2) ^ 2)) :=
        mul_le_mul_of_nonneg_left hfrac hA0
    _ ≤ a * ((f / 2) ^ 2 / ((x - c) ^ 2 + (f / 2) ^ 2)) := by
        apply mul_le_mul_of_nonneg_right ha
        positivity

lemma irTotalContribution_ge (peaks : List IRPeakInfo) (w : ℚ) (p : IRPeakInfo)
    (hp : p ∈ peaks) :
    lorentzianPeak w p.wavenumber p.width (max 0 (irBaselineLevel - p.targetTransmittance))
      ≤ irTotalContribution peaks w := by
  unfold irTotalContribution
  refine List.single_le_sum ?_ _ (List.mem_map.mpr ⟨p, hp, rfl⟩)
  intro x hx
  rcases List.mem_map.mp hx with ⟨q, _, rfl⟩
  exact lorentzianPeak_nonneg _ _ _ _ (le_max_left _ _)

/-- Upper bound for one clamped curve sample: baseline plus maximal noise
minus the chosen peak's Lorentzian contribution. -/
lemma irPointT_lt_of (e : Env) (hv : e.Valid) (peaks : List IRPeakInfo) (p : IRPeakInfo)
    (hp : p ∈ peaks) (w : ℚ) (k : Nat) (B C : ℚ)
    (hL : B ≤ lorentzianPeak w p.wavenumber p.width
      (max 0 (irBaselineLevel - p.targetTransmittance)))
    (hB : 98 + 28/25 - B < C) (hC : 0.1 < C) :
    irPointT e peaks w k < C := by
  have h1 := hv.rand_lt_one k
  have h3 := hv.rand_nonneg k
  have h2 := hv.sin_le_one (w * irNoiseFrequency + e.rand (k+1) * e.pi)
  have htot := irTotalContribution_ge peaks w p hp
  simp only [irPointT]
  apply max_lt hC
  apply lt_of_le_of_lt (min_le_right _ _)
  rw [irBaselineLevel, irNoiseAmplitude]
  nlinarith [htot, hL]

/-! ## Grid lemmas: a sample lands within 1/4 of any admissible center -/

lemma irSampleStep_val : irSampleStep = 1 / 2 := by
  rw [irSampleStep, irNumPoints]
  norm_num

lemma nearest_sample (c : ℚ) (h1 : 400 ≤ c) (h2 : c ≤ 4000) :
    ∃ j : Nat, j < irNumPoints ∧ (irW j - c) ^ 2 ≤ 1 / 16 ∧ |irW j - c| ≤ 1 / 4 := by
  set z : ℤ := ⌊(c - 400) * 2 + 1/2⌋ with hz
  have hz0 : 0 ≤ z := by
    rw [hz]
    apply Int.le_floor.mpr
    push_cast
    linarith
  have hzle : (z : ℚ) ≤ (c - 400) * 2 + 1/2 := Int.floor_le _
  have hzgt : (c - 400) * 2 + 1/2 < (z : ℚ) + 1 := Int.lt_floor_add_one _
  have hz7200 : z ≤ 7200 := by
    by_contra hcon
    push_neg at hcon
    have : (7201 : ℚ) ≤ (z : ℚ) := by exact_mod_cast hcon
    linarith
  have hcast : ((z.toNat : ℕ) : ℚ) = (z : ℚ) := by
    exact_mod_cast congrArg (fun n : ℤ => (n : ℚ)) (Int.toNat_of_nonneg hz0)
  have hwval : irW z.toNat = 400 + (z : ℚ) * (1 / 2) := by
    rw [irW, irSampleStep_val, hcast]
  have hblo : -(1/4) ≤ irW z.toNat - c := by
    rw [hwval]
    linarith
  have hbhi : irW z.toNat - c ≤ 1/4 := by
    rw [hwval]
    linarith
  refine ⟨z.toNat, ?_, ?_, ?_⟩
  · have hzz : (z.toNat : ℤ) = z := Int.toNat_of_nonneg hz0
    rw [irNumPoints]
    omega
  · nlinarith [hblo, hbhi]
  · exact abs_le.mpr ⟨hblo, hbhi⟩

/-! ## Fingerprint-loop lemmas -/

lemma addFps_append (e : Env) :
    ∀ (n : Nat) (acc : List IRPeakInfo) (k : Nat),
      ∃ ext, (addFps e n acc k).1 = acc ++ ext
  | 0, acc, k => ⟨[], by simp [addFps]⟩
  | n+1, acc, k => by
      rw [addFps]
      split
      · exact addFps_append e n acc (k+1)
      · obtain ⟨ext, hext⟩ := addFps_append e n
          (acc ++ [⟨600 + e.rand k * 750, 45 + e.rand (k+1) * 45,
            15 + e.rand (k+2) * 15, "Fingerprint region"⟩]) (k+3)
        refine ⟨⟨600 + e.rand k * 750, 45 + e.rand (k+1) * 45,
          15 + e.rand (k+2) * 15, "Fingerprint region"⟩ :: ext, ?_⟩
        rw [hext, List.append_assoc]
        rfl

lemma addFps_mem (e : Env) :
    ∀ (n : Nat) (acc : List IRPeakInfo) (k : Nat) (p : IRPeakInfo),
      p ∈ (addFps e n acc k).1 →
      p ∈ acc ∨ (p.assignment = "Fingerprint region" ∧ ∃ k',
        p.wavenumber = 600 + e.rand k' * 750 ∧
        p.targetTransmittance = 45 + e.rand (k'+1) * 45 ∧
        p.width = 15 + e.rand (k'+2) * 15)
  | 0, acc, k, p, h => Or.inl (by simpa [addFps] using h)
  | n+1, acc, k, p, h => by
      rw [addFps] at h
      split at h
      · exact addFps_mem e n acc (k+1) p h
      · rcases addFps_mem e n _ (k+3) p h with h' | h'
        · rcases List.mem_append.mp h' with h'' | h''
          · exact Or.inl h''
          · rcases List.mem_singleton.mp h'' with rfl
            exact Or.inr ⟨rfl, k, rfl, rfl, rfl⟩
        · exact Or.inr h'

lemma addFps_head (e : Env) (n k : Nat) :
    ∃ ext, (addFps e (n+1) [] k).1
      = ⟨600 + e.rand k * 750, 45 + e.rand (k+1) * 45, 15 + e.rand (k+2) * 15,
         "Fingerprint region"⟩ :: ext := by
  rw [addFps]
  rw [if_neg (by simp)]
  obtain ⟨ext, hext⟩ := addFps_append e n _ (k+3)
  exact ⟨ext, by rw [hext]; rfl⟩

/-! ## Featureless descriptors: IR produces exactly the fingerprint peaks -/

lemma leadsWith_head (c : Char) (p t : List Char) (h : leadsWith (c :: p) t = true) :
    leadsWith [c] t = true := by
  cases t with
  | nil => simp [leadsWith] at h
  | cons x xs =>
      simp only [leadsWith, Bool.and_eq_true] at h ⊢
      exact ⟨h.1, trivial⟩

lemma containsSub_head (c : Char) (p : List Char) :
    ∀ (s : List Char), containsSub (c :: p) s = true → containsSub [c] s = true
  | [], h => by simp [containsSub, leadsWith] at h
  | x :: xs, h => by
      rw [containsSub, Bool.or_eq_true] at h
      rw [containsSub, Bool.or_eq_true]
      rcases h with h | h
      · exact Or.inl (leadsWith_head c p _ h)
      · exact Or.inr (containsSub_head c p xs h)

lemma noFeat_no_C {s : List Char} (hf : analyzeMolecule s = noFeatures) :
    containsSub "C".data s = false := by
  by_cases he : s.isEmpty
  · rcases List.isEmpty_iff.mp he with rfl
    decide
  · unfold analyzeMolecule at hf
    rw [if_neg (by simpa using he)] at hf
    have h13 := congrArg MoleculeFeatures.hasSp3CH hf
    simp only [noFeatures] at h13
    rcases Bool.or_eq_false_iff.mp h13 with ⟨_, hc⟩
    exact hc

lemma noFeat_no_CN {s : List Char} (hf : analyzeMolecule s = noFeatures) :
    containsSub "C#N".data s = false := by
  have hC := noFeat_no_C hf
  by_contra hcon
  have htrue : containsSub "C#N".data s = true := by
    revert hcon
    cases containsSub "C#N".data s <;> simp
  have hdata : "C#N".data = 'C' :: "#N".data := by decide
  rw [hdata] at htrue
  have h2 := containsSub_head 'C' "#N".data s htrue
  have hCd : "C".data = ['C'] := by decide
  rw [hCd] at hC
  rw [h2] at hC
  cases hC

lemma mkIRSpecsBase_noFeat (e : Env) (s : List Char)
    (hCN : containsSub "C#N".data s = false) (k0 : Nat) :
    mkIRSpecsBase e s noFeatures k0 = ([], k0) := by
  simp [mkIRSpecsBase, stepOH, stepCOOH, stepNH, stepAmideNH, stepSp3, stepSp2,
    stepAlkyne, stepEster, stepAmide, stepKetoneAldehyde, stepAlkene, stepAromatic,
    stepCO, stepNitrile, noFeatures, hCN]

lemma acetone_not_noFeat : analyzeMolecule acetoneS ≠ noFeatures := by
  rw [analyzeMolecule_acetone]
  decide

lemma noFeat_ne_acetone {s : List Char} (hf : analyzeMolecule s = noFeatures) :
    s ≠ acetoneS := by
  intro h
  rw [h] at hf
  exact acetone_not_noFeat hf

lemma mkIRSpecs_noFeat (e : Env) {s : List Char} (hf : analyzeMolecule s = noFeatures) :
    mkIRSpecs e s = addFps e (3 + (⌊e.rand 0 * 5⌋).toNat) [] 1 := by
  simp only [mkIRSpecs, hf, mkIRSpecsBase_noFeat e s (noFeat_no_CN hf) 0, Nat.zero_add]
  rw [if_neg (noFeat_ne_acetone hf)]

lemma threshold_val : irBaselineLevel - irNoiseAmplitude * 2.5 = 96 := by
  rw [irBaselineLevel, irNoiseAmplitude]
  norm_num

/-- Shared core for C1 and C2: for every valid outcome and featureless
descriptor, the IR peak list is nonempty and consists purely of
`Fingerprint region` labels. -/
lemma ir_noFeat (e : Env) (hv : e.Valid) (s : List Char)
    (hf : analyzeMolecule s = noFeatures) :
    (simulateIRSpectrum e s).peaks ≠ [] ∧
    ∀ q ∈ (simulateIRSpectrum e s).peaks, q.assignment = "Fingerprint region" := by
  have hmk := mkIRSpecs_noFeat e hf
  obtain ⟨ext, hhead⟩ := addFps_head e (2 + (⌊e.rand 0 * 5⌋).toNat) 1
  have hhead' : (addFps e (3 + (⌊e.rand 0 * 5⌋).toNat) [] 1).1
      = (⟨600 + e.rand 1 * 750, 45 + e.rand (1+1) * 45, 15 + e.rand (1+2) * 15,
          "Fingerprint region"⟩ : IRPeakInfo) :: ext := by
    rw [show 3 + (⌊e.rand 0 * 5⌋).toNat = (2 + (⌊e.rand 0 * 5⌋).toNat) + 1 from by omega]
    exact hhead
  set p0 : IRPeakInfo := ⟨600 + e.rand 1 * 750, 45 + e.rand (1+1) * 45,
    15 + e.rand (1+2) * 15, "Fingerprint region"⟩ with hp0
  have hp0mem : p0 ∈ (mkIRSpecs e s).1 := by
    rw [hmk, hhead']
    exact List.mem_cons_self _ _
  have hall : ∀ p ∈ (mkIRSpecs e s).1, p.assignment = "Fingerprint region" := by
    intro p hp
    rw [hmk] at hp
    rcases addFps_mem e _ [] 1 p hp with h' | ⟨ha, _⟩
    · cases h'
    · exact ha
  rcases simulateIR_peaks_cases e s with ⟨hs, _⟩ | ⟨_, hpk⟩
  · exact absurd hs (noFeat_ne_acetone hf)
  have hr1lo := hv.rand_nonneg 1
  have hr1hi := hv.rand_lt_one 1
  have hr2lo := hv.rand_nonneg (1+1)
  have hr2hi := hv.rand_lt_one (1+1)
  have hr3lo := hv.rand_nonneg (1+2)
  have hr3hi := hv.rand_lt_one (1+2)
  have hc400 : 400 ≤ p0.wavenumber := by rw [hp0]; show (400:ℚ) ≤ 600 + e.rand 1 * 750; nlinarith
  have hc4000 : p0.wavenumber ≤ 4000 := by
    rw [hp0]; show (600:ℚ) + e.rand 1 * 750 ≤ 4000; nlinarith
  obtain ⟨j, hj, hsq, habs⟩ := nearest_sample p0.wavenumber hc400 hc4000
  have hwin : |irW j - p0.wavenumber| < checkWindow p0 := by
    apply lt_of_le_of_lt habs
    exact lt_of_lt_of_le (by norm_num) (le_max_left 5 _)
  obtain ⟨v, hfind, hvle⟩ := irLoop_hit e (mkIRSpecs e s).1 p0 hp0mem irNumPoints j 0
    (mkIRSpecs e s).2 [] [] hj (by simpa using hwin)
  have hwpos : (0:ℚ) < p0.width := by
    show (0:ℚ) < 15 + e.rand (1+2) * 15; nlinarith
  have hA8 : (8:ℚ) ≤ max 0 (irBaselineLevel - p0.targetTransmittance) := by
    refine le_trans ?_ (le_max_right _ _)
    rw [irBaselineLevel]
    show (8:ℚ) ≤ 98 - (45 + e.rand (1+1) * 45)
    nlinarith
  have hg : (225/4 : ℚ) ≤ (p0.width / 2) ^ 2 := by
    have : (15:ℚ) ≤ p0.width := by
      show (15:ℚ) ≤ 15 + e.rand (1+2) * 15; nlinarith
    nlinarith
  have hL := lorentzianPeak_ge (irW j) p0.wavenumber p0.width
    (max 0 (irBaselineLevel - p0.targetTransmittance)) 8 (225/4)
    hwpos (by norm_num) hA8 hg (by norm_num) hsq
  have hlt96 := irPointT_lt_of e hv (mkIRSpecs e s).1 p0 hp0mem (irW j)
    ((mkIRSpecs e s).2 + 2 * j) (8 * ((225/4) / (1/16 + 225/4))) 96 hL
    (by norm_num) (by norm_num)
  have hv96 : v.2 < irBaselineLevel - irNoiseAmplitude * 2.5 := by
    rw [threshold_val]
    calc v.2 ≤ irPointT e (mkIRSpecs e s).1 (irW (0 + j)) ((mkIRSpecs e s).2 + 2 * j) := hvle
      _ < 96 := by simpa using hlt96
  have hkv : (keyOf p0, v) ∈ (irLoop e (mkIRSpecs e s).1 irNumPoints 0
      (mkIRSpecs e s).2 [] []).2 := findMin_some_mem _ _ _ hfind
  have hbl := buildLabeled_ne_nil (irLoop e (mkIRSpecs e s).1 irNumPoints 0
      (mkIRSpecs e s).2 [] []).2 [] (Or.inl ⟨(keyOf p0, v), hkv, hv96⟩)
  constructor
  · rw [hpk]
    intro hnil
    have hperm := irSort_perm (buildLabeled (irLoop e (mkIRSpecs e s).1 irNumPoints 0
      (mkIRSpecs e s).2 [] []).2 [])
    rw [hnil] at hperm
    exact hbl (List.Perm.nil_eq hperm).symm
  · intro q hq
    rw [hpk] at hq
    have hq' := (irSort_perm _).subset hq
    rcases buildLabeled_sources _ _ q hq' with h' | ⟨kv, hkv', hqv⟩
    · cases h'
    · have hinv := minInv_irLoop e (mkIRSpecs e s).1 irNumPoints 0 (mkIRSpecs e s).2 [] []
        (by intro kv h; cases h) kv hkv'
      obtain ⟨p, hpmem, hkeq, _⟩ := hinv
      rw [hqv]
      show kv.1.1 = "Fingerprint region"
      rw [← hkeq]
      exact hall p hpmem

/-! ## Curve lengths and featureless UV/NMR results -/

lemma irLoop_length (e : Env) (peaks : List IRPeakInfo) :
    ∀ (n i k : Nat) (pts : List (ℚ × ℚ)) (m : MinMap),
      (irLoop e peaks n i k pts m).1.length = pts.length + n := by
  intro n
  induction n with
  | zero => intro i k pts m; simp [irLoop]
  | succ n ih =>
      intro i k pts m
      rw [irLoop, ih]
      simp only [List.length_append, List.length_singleton]
      omega

lemma uvLoop_length (e : Env) (ts : List UVTransition) :
    ∀ (n i k : Nat) (pts : List UVPoint),
      (uvLoop e ts n i k pts).length = pts.length + n := by
  intro n
  induction n with
  | zero => intro i k pts; simp [uvLoop]
  | succ n ih =>
      intro i k pts
      rw [uvLoop, ih]
      simp only [List.length_append, List.length_singleton]
      omega

lemma simulateUV_spectrum_eq (e : Env) (s : List Char) :
    (simulateUVSpectrum e s).spectrum
      = uvLoop e (mkUVTransitions e (analyzeMolecule s) 0).1 uvNumPoints 0
          (mkUVTransitions e (analyzeMolecule s) 0).2 [] := by
  simp only [simulateUVSpectrum]

lemma mkUVTransitions_noFeat (e : Env) (k0 : Nat) :
    mkUVTransitions e noFeatures k0 = ([], k0) := by
  simp [mkUVTransitions, stepUVAromatic, stepUVCarbonyl, stepUVEster, stepUVAmide,
    stepUVAlkene, noFeatures]

lemma uvLoop_low (e : Env) (hv : e.Valid) :
    ∀ (n i k : Nat) (pts : List UVPoint),
      (∀ q ∈ pts, q.absorbance ≤ 0.035) →
      ∀ q ∈ uvLoop e [] n i k pts, q.absorbance ≤ 0.035 := by
  intro n
  induction n with
  | zero => intro i k pts h; simpa [uvLoop] using h
  | succ n ih =>
      intro i k pts h
      rw [uvLoop]
      apply ih
      intro q hq
      rcases List.mem_append.mp hq with h' | h'
      · exact h q h'
      · rcases List.mem_singleton.mp h' with rfl
        show uvPointA e [] (uvW i) k ≤ 0.035
        simp only [uvPointA, List.map_nil, List.sum_nil]
        have hr := hv.rand_lt_one k
        have hr0 := hv.rand_nonneg k
        apply max_le
        · norm_num
        · rw [uvBaselineAbsorbance, uvNoiseAmplitude]
          nlinarith

lemma uvScan_low (ts : List UVTransition) :
    ∀ (pts : List UVPoint) (acc : List UVPeak),
      (∀ q ∈ pts, q.absorbance ≤ 0.035) →
      uvScan ts pts acc = acc
  | [], _, _ => rfl
  | [_], _, _ => rfl
  | [_, _], _, _ => rfl
  | p0 :: p1 :: p2 :: rest, acc, h => by
      have h1 := h p1 (List.mem_cons_of_mem _ (List.mem_cons_self _ _))
      have hnlt : ¬(uvThreshold < p1.absorbance) := by
        rw [uvThreshold, uvBaselineAbsorbance, uvNoiseAmplitude]
        intro hcon
        nlinarith
      have hcond : (decide (p0.absorbance < p1.absorbance) &&
          decide (p2.absorbance < p1.absorbance) &&
          decide (uvThreshold < p1.absorbance)) = false := by
        simp [decide_eq_false hnlt]
      simp only [uvScan]
      rw [if_neg (by simp [hcond])]
      exact uvScan_low ts (p1 :: p2 :: rest) acc
        (fun q hq => h q (List.mem_cons_of_mem _ hq))

lemma mk1HPeaks_noFeat (e : Env) (s : List Char) (hne : s ≠ acetoneS) :
    (mk1HPeaks e s noFeatures).peaks = [] := by
  simp [mk1HPeaks, step1HAromatic, step1HAlkene, step1HAldehyde, step1HAcid, step1HOH,
    step1HNH, step1HAmideNH, step1HAlpha, step1HSp3, step1HAcetone, noFeatures, hne]

lemma mk13CPeaks_noFeat (e : Env) (s : List Char) (hne : s ≠ acetoneS) :
    (mk13CPeaks e s noFeatures).peaks = [] := by
  simp [mk13CPeaks, step13CCarbonyl, step13CAromatic, step13CAlkene, step13CAlkyne,
    step13CCO, step13CCN, step13CSp3, step13CAcetone, noFeatures, hne]

/-! ## Claim C1: the empty descriptor -/

/-- Counterexample to claim C1 as stated: for the empty descriptor the IR
synthesis still renders a full (7201-point) curve, not an empty or absent
one. -/
theorem C1_counterexample : (simulateIRSpectrum env0 []).spectrum ≠ [] := by
  have h1 : (simulateIRSpectrum env0 []).spectrum.length = irNumPoints := by
    rw [simulateIR_spectrum_eq]
    rw [irLoop_length env0 (mkIRSpecs env0 []).1 irNumPoints 0 (mkIRSpecs env0 []).2 [] []]
    simp
  intro h
  rw [h] at h1
  simp [irNumPoints] at h1

/-- Claim C1, amended: for the empty descriptor (and every outcome of the
random source) the NMR strategies return empty peak lists and the UV-Vis
peak list is empty, but the IR and UV-Vis curves still span the full
fixed-length grid (7201 and 1201 points), and the IR peak list is not
empty — it consists of fingerprint-region peaks. -/
theorem C1_empty_descriptor (e : Env) (hv : e.Valid) :
    simulateNMRSpectrum e [] NMRType.h1 = [] ∧
    simulateNMRSpectrum e [] NMRType.c13 = [] ∧
    (simulateUVSpectrum e []).peaks = [] ∧
    (simulateIRSpectrum e []).spectrum.length = irNumPoints ∧
    (simulateUVSpectrum e []).spectrum.length = uvNumPoints ∧
    (simulateIRSpectrum e []).peaks ≠ [] := by
  have hf : analyzeMolecule [] = noFeatures := rfl
  have hne : ([] : List Char) ≠ acetoneS := by decide
  refine ⟨?_, ?_, ?_, ?_, ?_, ?_⟩
  · rw [simulateNMR_h1, hf, mk1HPeaks_noFeat e [] hne, List.mergeSort_nil]
  · rw [simulateNMR_c13, hf, mk13CPeaks_noFeat e [] hne, List.mergeSort_nil]
  · have hlow := uvLoop_low e hv uvNumPoints 0 0 [] (by intro q hq; cases hq)
    have hscan := uvScan_low ([] : List UVTransition)
      (uvLoop e [] uvNumPoints 0 0 []) [] hlow
    show (simulateUVSpectrum e []).peaks = []
    simp only [simulateUVSpectrum, hf, mkUVTransitions_noFeat]
    rw [hscan, List.mergeSort_nil]
  · rw [simulateIR_spectrum_eq]
    rw [irLoop_length e (mkIRSpecs e []).1 irNumPoints 0 (mkIRSpecs e []).2 [] []]
    simp
  · rw [simulateUV_spectrum_eq]
    rw [uvLoop_length e _ uvNumPoints 0 _ []]
    simp
  · exact (ir_noFeat e hv [] hf).1

/-- Witness for the amended C1 at the concrete valid environment. -/
theorem C1_empty_descriptor_witness :
    simulateNMRSpectrum env0 [] NMRType.h1 = [] ∧
    simulateNMRSpectrum env0 [] NMRType.c13 = [] ∧
    (simulateUVSpectrum env0 []).peaks = [] ∧
    (simulateIRSpectrum env0 []).spectrum.length = irNumPoints ∧
    (simulateUVSpectrum env0 []).spectrum.length = uvNumPoints ∧
    (simulateIRSpectrum env0 []).peaks ≠ [] :=
  C1_empty_descriptor env0 env0_valid

/-! ## Claim C2: descriptors with no recognised pattern -/

/-- Counterexample to claim C2 as stated: the descriptor `"X"` matches no
functional-group pattern (all flags are false), yet the IR result contains
no generic C–H stretch peak at all — every labeled peak is a
fingerprint-region peak.  (A C–H stretch requires the sp³ C–H flag, which
needs a `C` in the descriptor.) -/
theorem C2_counterexample :
    ((simulateIRSpectrum env0 "X".data).peaks.all fun q =>
      !(strContains q.assignment "C-H")) = true := by
  rw [List.all_eq_true]
  intro q hq
  have h := (ir_noFeat env0 env0_valid "X".data (by decide)).2 q hq
  rw [h]
  decide

/-- Claim C2, amended: for every valid outcome and every descriptor whose
detected feature flags are all false, the IR result still contains at
least one labeled peak, and every labeled peak carries the
`Fingerprint region` label (so between one and seven fingerprint peaks
and, in particular, no generic C–H stretch peak). -/
theorem C2_featureless (e : Env) (s : List Char) (hv : e.Valid)
    (hf : analyzeMolecule s = noFeatures) :
    (simulateIRSpectrum e s).peaks ≠ [] ∧
    ((simulateIRSpectrum e s).peaks.all fun q =>
      q.assignment == "Fingerprint region") = true := by
  obtain ⟨h1, h2⟩ := ir_noFeat e hv s hf
  refine ⟨h1, ?_⟩
  rw [List.all_eq_true]
  intro q hq
  simpa using h2 q hq

/-- Witness for the amended C2: the descriptor `"X"` under the concrete
valid environment. -/
theorem C2_featureless_witness :
    (simulateIRSpectrum env0 "X".data).peaks ≠ [] ∧
    ((simulateIRSpectrum env0 "X".data).peaks.all fun q =>
      q.assignment == "Fingerprint region") = true :=
  C2_featureless env0 "X".data env0_valid (by decide)

/-! ## Acetone override: structure of the characteristic-peak list -/

lemma acetone_base (e : Env) :
    mkIRSpecsBase e acetoneS acetoneFeatures 0 =
      ([⟨3350 + e.rand 0 * 250, 30 + e.rand 1 * 40, 100 + e.rand 2 * 200,
          "O-H stretch (Alcohol/Phenol)"⟩,
        ⟨2960 + e.rand 3 * 40, 40 + e.rand 4 * 30, 25 + e.rand 5 * 15, "C-H stretch (sp3)"⟩,
        ⟨2870 + e.rand 6 * 40, 50 + e.rand 7 * 30, 30 + e.rand 8 * 15, "C-H stretch (sp3)"⟩,
        ⟨1450 + e.rand 9 * 30, 50 + e.rand 10 * 30, 20 + e.rand 11 * 10, "C-H bend (sp3)"⟩,
        ⟨1375 + e.rand 12 * 15, 55 + e.rand 13 * 25, 15 + e.rand 14 * 10, "C-H bend (sp3)"⟩,
        ⟨1715 + e.rand 15 * 25, 10 + e.rand 16 * 15, 20 + e.rand 17 * 10,
          "C=O stretch (Ketone/Aldehyde)"⟩,
        ⟨1100 + e.rand 18 * 150, 35 + e.rand 19 * 40, 40 + e.rand 20 * 30, "C-O stretch"⟩],
       21) := by
  have h1 : containsSub "C(=O)H".data acetoneS = false := by decide
  have h2 : containsSub "C=O)H".data acetoneS = false := by decide
  have h3 : containsSub "C#N".data acetoneS = false := by decide
  simp [mkIRSpecsBase, stepOH, stepCOOH, stepNH, stepAmideNH, stepSp3, stepSp2,
    stepAlkyne, stepEster, stepAmide, stepKetoneAldehyde, stepAlkene, stepAromatic,
    stepCO, stepNitrile, acetoneFeatures, h1, h2, h3]

lemma mkIRSpecs_acetone_struct (e : Env) (hv : e.Valid) :
    ∃ pre k', (mkIRSpecs e acetoneS).1 = pre ++ acetoneIRPeaks e k' ∧
      ∀ p ∈ pre, p.assignment = "O-H stretch (Alcohol/Phenol)" ∨
        p.assignment = "C-O stretch" ∨ p.assignment = "Fingerprint region" := by
  simp only [mkIRSpecs, analyzeMolecule_acetone, acetone_base, if_true]
  refine ⟨_, _, rfl, ?_⟩
  intro p hp
  have hp' := List.mem_filter.mp hp
  rcases addFps_mem e _ _ 22 p hp'.1 with hbase | ⟨hfp, _⟩
  · have hpred := hp'.2
    have d1 : strContains "C-H stretch (sp3)" "C-H stretch (sp3)" = true := by decide
    have d2 : strContains "C-H bend (sp3)" "C-H bend (sp3)" = true := by decide
    have d3 : strContains "C=O stretch (Ketone/Aldehyde)" "C=O" = true := by decide
    have hr15 := hv.rand_nonneg 15
    have hr15' := hv.rand_lt_one 15
    have d4 : (decide (|1715 + e.rand 15 * 25 - 1715| < 50)) = true := by
      apply decide_eq_true
      rw [abs_lt]
      constructor <;> nlinarith
    simp only [List.mem_cons, List.not_mem_nil, or_false] at hbase
    rcases hbase with rfl | rfl | rfl | rfl | rfl | rfl | rfl
    · exact Or.inl rfl
    · exfalso
      simp [acetoneIRFilter, d1] at hpred
    · exfalso
      simp [acetoneIRFilter, d1] at hpred
    · exfalso
      simp [acetoneIRFilter, d2] at hpred
    · exfalso
      simp [acetoneIRFilter, d2] at hpred
    · exfalso
      simp only [acetoneIRFilter, d3, Bool.true_and, d4, Bool.not_true, Bool.false_and,
        Bool.and_eq_true] at hpred
      cases hpred
    · exact Or.inr (Or.inl rfl)
  · exact Or.inr (Or.inr hfp)

lemma dedup_append :
    ∀ (l acc : List IRSpectrumPeak), ∃ ext, dedupByAssignment l acc = acc ++ ext
  | [], acc => ⟨[], by simp [dedupByAssignment]⟩
  | p :: rest, acc => by
      simp only [dedupByAssignment]
      split
      · exact dedup_append rest acc
      · obtain ⟨ext, hext⟩ := dedup_append rest (acc ++ [p])
        exact ⟨p :: ext, by rw [hext, List.append_assoc]; rfl⟩

lemma dedup_mem_unique :
    ∀ (l acc : List IRSpectrumPeak) (q : IRSpectrumPeak),
      q ∈ l → (∀ q' ∈ l, q'.assignment = q.assignment → q' = q) →
      (∀ a ∈ acc, a.assignment ≠ q.assignment) →
      q ∈ dedupByAssignment l acc
  | [], _, q, hq, _, _ => absurd hq (List.not_mem_nil q)
  | p :: rest, acc, q, hq, huniq, hacc => by
      simp only [dedupByAssignment]
      by_cases hpq : p = q
      · subst hpq
        have hanyf : (acc.any fun a => a.assignment == p.assignment) = false := by
          rw [List.any_eq_false]
          intro a ha
          simpa [beq_iff_eq] using hacc a ha
        rw [if_neg (by simp [hanyf])]
        obtain ⟨ext, hext⟩ := dedup_append rest (acc ++ [p])
        rw [hext]
        exact List.mem_append_left _ (List.mem_append_right _ (List.mem_singleton.mpr rfl))
      · have hpa : p.assignment ≠ q.assignment := fun h => hpq (huniq p (List.mem_cons_self _ _) h)
        have hq' : q ∈ rest := by
          rcases List.mem_cons.mp hq with h' | h'
          · exact absurd h'.symm hpq
          · exact h'
        have huniq' : ∀ q' ∈ rest, q'.assignment = q.assignment → q' = q :=
          fun q' h' => huniq q' (List.mem_cons_of_mem _ h')
        split
        · exact dedup_mem_unique rest acc q hq' huniq' hacc
        · apply dedup_mem_unique rest _ q hq' huniq'
          intro a ha
          rcases List.mem_append.mp ha with h' | h'
          · exact hacc a h'
          · rcases List.mem_singleton.mp h' with rfl
            exact hpa

lemma simplify_ceq (w t : ℚ) :
    simplifyIRLabel ⟨w, t, "C=O"⟩ = ⟨w, t, "C=O"⟩ := by
  simp [simplifyIRLabel,
    show strContains "C=O" "C-C" = false from by decide,
    show strContains "C=O" "CH3 bend" = false from by decide,
    show strContains "C=O" "C=O" = true from by decide]

/-- Among the labels that can occur in an acetone IR run, only the label
`C=O` itself is sent to `C=O` by the simplification map. -/
lemma simplify_to_ceq {p : IRSpectrumPeak}
    (hlab : p.assignment = "O-H stretch (Alcohol/Phenol)" ∨ p.assignment = "C-O stretch" ∨
      p.assignment = "Fingerprint region" ∨ p.assignment = "C=O" ∨
      p.assignment = "C-H" ∨ p.assignment = "CH3 bend" ∨ p.assignment = "C-C stretch")
    (h : (simplifyIRLabel p).assignment = "C=O") : p.assignment = "C=O" := by
  obtain ⟨w, t, a⟩ := p
  simp only at hlab h ⊢
  rcases hlab with rfl | rfl | rfl | rfl | rfl | rfl | rfl
  · rw [show simplifyIRLabel ⟨w, t, "O-H stretch (Alcohol/Phenol)"⟩
        = ⟨w, t, "O-H stretch (Alcohol/Phenol)"⟩ from by
      simp [simplifyIRLabel,
        show strContains "O-H stretch (Alcohol/Phenol)" "C-C" = false from by decide,
        show strContains "O-H stretch (Alcohol/Phenol)" "CH3 bend" = false from by decide,
        show strContains "O-H stretch (Alcohol/Phenol)" "C=O" = false from by decide,
        show strContains "O-H stretch (Alcohol/Phenol)" "C-H" = false from by decide]] at h
    simp at h
  · rw [show simplifyIRLabel ⟨w, t, "C-O stretch"⟩ = ⟨w, t, "C-O stretch"⟩ from by
      simp [simplifyIRLabel,
        show strContains "C-O stretch" "C-C" = false from by decide,
        show strContains "C-O stretch" "CH3 bend" = false from by decide,
        show strContains "C-O stretch" "C=O" = false from by decide,
        show strContains "C-O stretch" "C-H" = false from by decide]] at h
    simp at h
  · rw [show simplifyIRLabel ⟨w, t, "Fingerprint region"⟩ = ⟨w, t, "Fingerprint region"⟩ from by
      simp [simplifyIRLabel,
        show strContains "Fingerprint region" "C-C" = false from by decide,
        show strContains "Fingerprint region" "CH3 bend" = false from by decide,
        show strContains "Fingerprint region" "C=O" = false from by decide,
        show strContains "Fingerprint region" "C-H" = false from by decide]] at h
    simp at h
  · rfl
  · rw [show simplifyIRLabel ⟨w, t, "C-H"⟩ = ⟨w, t, "C-H"⟩ from by
      simp [simplifyIRLabel,
        show strContains "C-H" "C-C" = false from by decide,
        show strContains "C-H" "CH3 bend" = false from by decide,
        show strContains "C-H" "C=O" = false from by decide,
        show strContains "C-H" "C-H" = true from by decide]] at h
    simp at h
  · rw [show simplifyIRLabel ⟨w, t, "CH3 bend"⟩ = ⟨w, t, "CH3"⟩ from by
      simp [simplifyIRLabel,
        show strContains "CH3 bend" "C-C" = false from by decide,
        show strContains "CH3 bend" "CH3 bend" = true from by decide]] at h
    simp at h
  · rw [show simplifyIRLabel ⟨w, t, "C-C stretch"⟩ = ⟨w, t, "C-C"⟩ from by
      simp [simplifyIRLabel,
        show strContains "C-C stretch" "C-C" = true from by decide]] at h
    simp at h

/-! ## Claim C3: acetone IR carbonyl peak -/

/-- Claim C3: for the acetone descriptor `CC(=O)C` and the IR strategy,
for every outcome of the random source, the labeled peak list contains a
peak labeled `C=O` (the curated override's carbonyl stretch) whose
wavenumber lies in [1695, 1735] cm⁻¹ and whose transmittance is below
15 %. -/
theorem C3_acetone_ir (e : Env) (hv : e.Valid) :
    ∃ q ∈ (simulateIRSpectrum e acetoneS).peaks,
      q.assignment = "C=O" ∧ 1695 ≤ q.wavenumber ∧ q.wavenumber ≤ 1735 ∧
      q.transmittance < 15 := by
  obtain ⟨pre, k', hstruct, hpre⟩ := mkIRSpecs_acetone_struct e hv
  rcases simulateIR_peaks_cases e acetoneS with ⟨_, hpk⟩ | ⟨hne, _⟩
  swap
  · exact absurd rfl hne
  have hpcmem : (⟨1715 + (e.rand k' - 0.5) * 5, 5 + e.rand (k'+1) * 5,
      18 + e.rand (k'+2) * 5, "C=O"⟩ : IRPeakInfo) ∈ (mkIRSpecs e acetoneS).1 := by
    rw [hstruct]
    exact List.mem_append_right _ (List.mem_cons_self _ _)
  have h0 := hv.rand_nonneg k'
  have h0' := hv.rand_lt_one k'
  have hb1 := hv.rand_nonneg (k'+1)
  have hb1' := hv.rand_lt_one (k'+1)
  have hb2 := hv.rand_nonneg (k'+2)
  have hb2' := hv.rand_lt_one (k'+2)
  have hclo : (1712.5 : ℚ) ≤ 1715 + (e.rand k' - 0.5) * 5 := by nlinarith
  have hchi : 1715 + (e.rand k' - 0.5) * 5 ≤ (1717.5 : ℚ) := by nlinarith
  have hwlo : (18 : ℚ) ≤ 18 + e.rand (k'+2) * 5 := by nlinarith
  have hwhi : 18 + e.rand (k'+2) * 5 < (23 : ℚ) := by nlinarith
  have htgt : 5 + e.rand (k'+1) * 5 ≤ (10 : ℚ) := by nlinarith
  have huniq : ∀ p ∈ (mkIRSpecs e acetoneS).1, p.assignment = "C=O" →
      p = ⟨1715 + (e.rand k' - 0.5) * 5, 5 + e.rand (k'+1) * 5,
        18 + e.rand (k'+2) * 5, "C=O"⟩ := by
    intro p hp hpa
    rw [hstruct] at hp
    rcases List.mem_append.mp hp with hp' | hp'
    · rcases hpre p hp' with h | h | h <;> (rw [hpa] at h; exact absurd h (by decide))
    · simp only [acetoneIRPeaks, List.mem_cons, List.not_mem_nil, or_false] at hp'
      rcases hp' with rfl | rfl | rfl | rfl | rfl | rfl
      · rfl
      all_goals simp at hpa
  have hlabels : ∀ p ∈ (mkIRSpecs e acetoneS).1,
      p.assignment = "O-H stretch (Alcohol/Phenol)" ∨ p.assignment = "C-O stretch" ∨
      p.assignment = "Fingerprint region" ∨ p.assignment = "C=O" ∨
      p.assignment = "C-H" ∨ p.assignment = "CH3 bend" ∨ p.assignment = "C-C stretch" := by
    intro p hp
    rw [hstruct] at hp
    rcases List.mem_append.mp hp with hp' | hp'
    · rcases hpre p hp' with h | h | h
      · exact Or.inl h
      · exact Or.inr (Or.inl h)
      · exact Or.inr (Or.inr (Or.inl h))
    · simp only [acetoneIRPeaks, List.mem_cons, List.not_mem_nil, or_false] at hp'
      rcases hp' with rfl | rfl | rfl | rfl | rfl | rfl
      · exact Or.inr (Or.inr (Or.inr (Or.inl rfl)))
      · exact Or.inr (Or.inr (Or.inr (Or.inr (Or.inl rfl))))
      · exact Or.inr (Or.inr (Or.inr (Or.inr (Or.inl rfl))))
      · exact Or.inr (Or.inr (Or.inr (Or.inr (Or.inr (Or.inl rfl)))))
      · exact Or.inr (Or.inr (Or.inr (Or.inr (Or.inr (Or.inl rfl)))))
      · exact Or.inr (Or.inr (Or.inr (Or.inr (Or.inr (Or.inr rfl)))))
  obtain ⟨j, hj, hsq, habs⟩ := nearest_sample (1715 + (e.rand k' - 0.5) * 5)
    (by linarith) (by linarith)
  have hwin : |irW j - (1715 + (e.rand k' - 0.5) * 5)| <
      checkWindow ⟨1715 + (e.rand k' - 0.5) * 5, 5 + e.rand (k'+1) * 5,
        18 + e.rand (k'+2) * 5, "C=O"⟩ :=
    lt_of_le_of_lt habs (lt_of_lt_of_le (by norm_num) (le_max_left 5 _))
  obtain ⟨v, hfind, hvle⟩ := irLoop_hit e (mkIRSpecs e acetoneS).1 _ hpcmem irNumPoints j 0
    (mkIRSpecs e acetoneS).2 [] [] hj (by simpa using hwin)
  have hA88 : (88 : ℚ) ≤ max 0 (irBaselineLevel -
      (⟨1715 + (e.rand k' - 0.5) * 5, 5 + e.rand (k'+1) * 5,
        18 + e.rand (k'+2) * 5, "C=O"⟩ : IRPeakInfo).targetTransmittance) := by
    refine le_trans ?_ (le_max_right _ _)
    rw [irBaselineLevel]
    show (88 : ℚ) ≤ 98 - (5 + e.rand (k'+1) * 5)
    linarith
  have hg81 : (81 : ℚ) ≤ ((18 + e.rand (k'+2) * 5) / 2) ^ 2 := by nlinarith
  have hL := lorentzianPeak_ge (irW j) (1715 + (e.rand k' - 0.5) * 5)
    (18 + e.rand (k'+2) * 5)
    (max 0 (irBaselineLevel - (5 + e.rand (k'+1) * 5))) 88 81
    (by linarith) (by norm_num) (by simpa using hA88) hg81 (by norm_num) hsq
  have hlt15 := irPointT_lt_of e hv (mkIRSpecs e acetoneS).1 _ hpcmem (irW j)
    ((mkIRSpecs e acetoneS).2 + 2 * j) (88 * (81 / (1/16 + 81))) 15
    (by simpa using hL) (by norm_num) (by norm_num)
  have hv15 : v.2 < 15 := lt_of_le_of_lt (by simpa using hvle) hlt15
  have hv96 : v.2 < irBaselineLevel - irNoiseAmplitude * 2.5 := by
    rw [threshold_val]
    linarith
  have hinv := minInv_irLoop e (mkIRSpecs e acetoneS).1 irNumPoints 0
    (mkIRSpecs e acetoneS).2 [] [] (by intro kv h; cases h)
  have hnd := nodupKeys_irLoop e (mkIRSpecs e acetoneS).1 irNumPoints 0
    (mkIRSpecs e acetoneS).2 [] [] (by simp [NodupKeys])
  have hkvmem := findMin_some_mem _ _ _ hfind
  have hallCeq : ∀ kv ∈ (irLoop e (mkIRSpecs e acetoneS).1 irNumPoints 0
      (mkIRSpecs e acetoneS).2 [] []).2, kv.1.1 = "C=O" →
      kv.2 = v ∧ (1695 ≤ kv.2.1 ∧ kv.2.1 ≤ 1735) := by
    intro kv hkv hA
    obtain ⟨p, hpmem, hkeq, hwdist⟩ := hinv kv hkv
    have hpA : p.assignment = "C=O" := by
      rw [← hA, ← hkeq]
      rfl
    have hppc := huniq p hpmem hpA
    subst hppc
    constructor
    · have hfm := findMin_eq_of_mem _ hnd kv hkv
      rw [← hkeq] at hfm
      rw [hfm] at hfind
      exact (Option.some.injEq _ _ ▸ hfind : kv.2 = v)
    · have hcw : checkWindow (⟨1715 + (e.rand k' - 0.5) * 5, 5 + e.rand (k'+1) * 5,
          18 + e.rand (k'+2) * 5, "C=O"⟩ : IRPeakInfo) ≤ 23 / 3 := by
        apply max_le (by norm_num)
        show (18 + e.rand (k'+2) * 5) / 3 ≤ 23 / 3
        linarith
      have habs' := abs_lt.mp (lt_of_lt_of_le hwdist hcw)
      constructor
      · have : (1712.5 : ℚ) - 23 / 3 ≤ kv.2.1 := by
          have h1 := habs'.1
          simp only at h1
          linarith
        linarith
      · have : kv.2.1 ≤ (1717.5 : ℚ) + 23 / 3 := by
          have h2 := habs'.2
          simp only at h2
          linarith
        linarith
  have hkvA : ((keyOf (⟨1715 + (e.rand k' - 0.5) * 5, 5 + e.rand (k'+1) * 5,
      18 + e.rand (k'+2) * 5, "C=O"⟩ : IRPeakInfo), v)).1.1 = "C=O" := rfl
  obtain ⟨hveq, hvw⟩ := hallCeq _ hkvmem hkvA
  have hq0 : (⟨v.1, v.2, "C=O"⟩ : IRSpectrumPeak) ∈ buildLabeled
      (irLoop e (mkIRSpecs e acetoneS).1 irNumPoints 0
        (mkIRSpecs e acetoneS).2 [] []).2 [] := by
    apply buildLabeled_mem_unique "C=O" v.1 v.2
    · exact ⟨_, hkvmem, hkvA⟩
    · intro kv hkv hA
      obtain ⟨hk2, _⟩ := hallCeq kv hkv hA
      rw [hk2]
      exact ⟨rfl, rfl⟩
    · exact hv96
    · intro a ha
      cases ha
  have hlabeled : ∀ q' ∈ buildLabeled
      (irLoop e (mkIRSpecs e acetoneS).1 irNumPoints 0
        (mkIRSpecs e acetoneS).2 [] []).2 [],
      q'.assignment = "O-H stretch (Alcohol/Phenol)" ∨ q'.assignment = "C-O stretch" ∨
      q'.assignment = "Fingerprint region" ∨ q'.assignment = "C=O" ∨
      q'.assignment = "C-H" ∨ q'.assignment = "CH3 bend" ∨
      q'.assignment = "C-C stretch" := by
    intro q' hq'
    rcases buildLabeled_sources _ _ q' hq' with h' | ⟨kv, hkv, rfl⟩
    · cases h'
    · obtain ⟨p, hpmem, hkeq, _⟩ := hinv kv hkv
      have h' : kv.1.1 = p.assignment := by
        rw [← hkeq]
        rfl
      show kv.1.1 = _ ∨ kv.1.1 = _ ∨ kv.1.1 = _ ∨ kv.1.1 = _ ∨ kv.1.1 = _ ∨
        kv.1.1 = _ ∨ kv.1.1 = _
      rw [h']
      exact hlabels p hpmem
  have huniql : ∀ q' ∈ buildLabeled
      (irLoop e (mkIRSpecs e acetoneS).1 irNumPoints 0
        (mkIRSpecs e acetoneS).2 [] []).2 [],
      q'.assignment = "C=O" → q' = ⟨v.1, v.2, "C=O"⟩ := by
    intro q' hq' hA
    rcases buildLabeled_sources _ _ q' hq' with h' | ⟨kv, hkv, rfl⟩
    · cases h'
    · have hA' : kv.1.1 = "C=O" := hA
      obtain ⟨hk2, _⟩ := hallCeq kv hkv hA'
      rw [hk2, hA']
  rw [hpk]
  refine ⟨⟨v.1, v.2, "C=O"⟩, ?_, rfl, hvw.1, hvw.2, hv15⟩
  apply (irSort_perm _).mem_iff.mpr
  apply dedup_mem_unique
  · apply List.mem_map.mpr
    refine ⟨⟨v.1, v.2, "C=O"⟩, ?_, simplify_ceq v.1 v.2⟩
    exact (irSort_perm _).mem_iff.mpr hq0
  · intro x hx hxA
    rcases List.mem_map.mp hx with ⟨q', hq', rfl⟩
    have hq'l := (irSort_perm _).subset hq'
    have hql : q'.assignment = "C=O" := simplify_to_ceq (hlabeled q' hq'l) hxA
    rw [huniql q' hq'l hql, simplify_ceq]
  · intro a ha
    cases ha

/-- Witness for C3 at the concrete valid environment. -/
theorem C3_acetone_ir_witness :
    ∃ q ∈ (simulateIRSpectrum env0 acetoneS).peaks,
      q.assignment = "C=O" ∧ 1695 ≤ q.wavenumber ∧ q.wavenumber ≤ 1735 ∧
      q.transmittance < 15 :=
  C3_acetone_ir env0 env0_valid

end SpectraLab
